import Mathlib

/-!
Verification of the real_robots local evaluation harness
(src/real_robots/evaluate.py) against its natural-language specification.

The embedding models:
  * the score ledger (a Python dict from challenge label to list of scores)
    as an association list with insertion-order semantics;
  * build_score_object as the fold over the fixed challenge list
    (np.mean is modelled as exact rational sum/length);
  * add_scores as the dict update it performs;
  * the evaluate orchestrator as a trace-producing function over abstract
    deterministic environment and controller state machines, with fuel for
    the two while-not-done loops and an Except-style controller step so
    that exception propagation is observable.
-/

/-- A score ledger: Python dict mapping challenge label to the list of
recorded scores.  Keys are unique; a new key is appended at the end
(Python insertion order). -/
abbrev Ledger : Type := List (String × List ℚ)

/-- Membership test mirroring the Python expression key in scores.keys). -/
def hasKey (k : String) : Ledger → Bool
  | [] => false
  | (k0, _) :: rest => if k0 = k then true else hasKey k rest

/-- Dict read scores[key] (only reached by the source when the key is
present; the default [] is never consulted by build_score_object). -/
def getKey (k : String) : Ledger → List ℚ
  | [] => []
  | (k0, v) :: rest => if k0 = k then v else getKey k rest

/-- Dict update scores[challenge] += [score] on a present key. -/
def appendKey (k : String) (v : ℚ) : Ledger → Ledger
  | [] => []
  | (k0, l) :: rest =>
      if k0 = k then (k0, l ++ [v]) :: rest else (k0, l) :: appendKey k v rest

/-- add_scores from evaluate.py lines 128-132: append to an existing
challenge entry, or create a fresh singleton entry. -/
def add_scores (challenge : String) (score : ℚ) (s : Ledger) : Ledger :=
  if hasKey challenge s then appendKey challenge score s
  else s ++ [(challenge, [score])]

/-- np.mean on a list of scores, in exact rational arithmetic:
sum divided by length. -/
def npMean (l : List ℚ) : ℚ := l.sum / (l.length : ℚ)

/-- The fixed closed set of challenge labels (evaluate.py line 15). -/
def challenges : List String := ["2D", "2.5D", "3D"]

/-- The score object produced by build_score_object: a dict from field
name to numeric score, in insertion order. -/
abbrev ScoreOut : Type := List (String × ℚ)

/-- build_score_object (evaluate.py lines 13-30): for each fixed challenge
label, the mean of its recorded scores if the ledger has the key, else 0;
accumulate the per-label scores into total_score; finally divide
total_score by the number of labels and emit score_total. -/
def build_score_object (scores : Ledger) : ScoreOut :=
  let f := fun (acc : ℚ × ScoreOut) (key : String) =>
    let challenge_score := if hasKey key scores then npMean (getKey key scores) else 0
    (acc.1 + challenge_score, acc.2 ++ [("score_" ++ key, challenge_score)])
  let r := challenges.foldl f (0, [])
  r.2 ++ [("score_total", r.1 / (challenges.length : ℚ))]

/-- Dict membership test with the dict threaded through, mirroring that
the Python call reads the mutable scores dict. -/
def hasKeySt (k : String) (s : Ledger) : Bool × Ledger := (hasKey k s, s)

/-- Dict read with the dict threaded through. -/
def getKeySt (k : String) (s : Ledger) : List ℚ × Ledger := (getKey k s, s)

/-- build_score_object with the mutable scores dict threaded through each
dict operation, returning the score object together with the dict as the
call leaves it.  This is the form in which the orchestrator interleaves
aggregation snapshots with further add_scores calls. -/
def build_score_object_st (scores : Ledger) : ScoreOut × Ledger :=
  let f := fun (acc : ℚ × ScoreOut × Ledger) (key : String) =>
    let p := hasKeySt key acc.2.2
    let challenge_score := if p.1 then npMean (getKeySt key p.2).1 else 0
    let s2 := if p.1 then (getKeySt key p.2).2 else p.2
    (acc.1 + challenge_score, acc.2.1 ++ [("score_" ++ key, challenge_score)], s2)
  let r := challenges.foldl f (0, [], scores)
  (r.2.1 ++ [("score_total", r.1 / (challenges.length : ℚ))], r.2.2)

/-- Field accessor on a score object. -/
def scoreField (o : ScoreOut) (k : String) : Option ℚ := o.lookup k

theorem build_score_object_st_eq (scores : Ledger) :
    build_score_object_st scores = (build_score_object scores, scores) := by
  simp [build_score_object_st, build_score_object, challenges,
    hasKeySt, getKeySt, List.foldl]

theorem hasKey_false_getKey (k : String) (s : Ledger)
    (h : hasKey k s = false) : getKey k s = [] := by
  induction s with
  | nil => rfl
  | cons p rest ih =>
      obtain ⟨k0, v⟩ := p
      by_cases hk : k0 = k
      · simp [hasKey, hk] at h
      · simp [hasKey, hk] at h
        simp [getKey, hk, ih h]

theorem hasKey_true_getKey_ne (k : String) (s : Ledger)
    (wf : ∀ p ∈ s, p.2 ≠ []) (h : hasKey k s = true) : getKey k s ≠ [] := by
  induction s with
  | nil => simp [hasKey] at h
  | cons p rest ih =>
      obtain ⟨k0, v⟩ := p
      by_cases hk : k0 = k
      · simpa [getKey, hk] using wf (k0, v) (by simp)
      · simp [hasKey, hk] at h
        have := ih (fun q hq => wf q (List.mem_cons_of_mem _ hq)) h
        simpa [getKey, hk] using this

/-- The per-label value computed inside the build_score_object loop. -/
def challengeScore (scores : Ledger) (k : String) : ℚ :=
  if hasKey k scores then npMean (getKey k scores) else 0

/-- Spec-side per-label score: the arithmetic mean of the recorded scores
when at least one entry exists for the label, else exactly 0. -/
def labelScore (scores : Ledger) (k : String) : ℚ :=
  if getKey k scores ≠ [] then npMean (getKey k scores) else 0

theorem build_score_object_eq (scores : Ledger) :
    build_score_object scores =
      [("score_2D", challengeScore scores "2D"),
       ("score_2.5D", challengeScore scores "2.5D"),
       ("score_3D", challengeScore scores "3D"),
       ("score_total",
         (challengeScore scores "2D" + challengeScore scores "2.5D" +
           challengeScore scores "3D") / 3)] := by
  simp [build_score_object, challenges, List.foldl, challengeScore]

theorem challengeScore_eq_labelScore (scores : Ledger)
    (wf : ∀ p ∈ scores, p.2 ≠ []) (k : String) :
    challengeScore scores k = labelScore scores k := by
  unfold challengeScore labelScore
  cases h : hasKey k scores with
  | true => simp [hasKey_true_getKey_ne k scores wf h]
  | false => simp [hasKey_false_getKey k scores h]

theorem hasKey_append_fresh (k key : String) (s : Ledger) (l : List ℚ)
    (hne : k ≠ key) : hasKey k (s ++ [(key, l)]) = hasKey k s := by
  induction s with
  | nil => simp [hasKey, Ne.symm hne]
  | cons p rest ih =>
      obtain ⟨k0, v⟩ := p
      by_cases hk : k0 = k <;> simp [hasKey, hk, ih]

theorem getKey_append_fresh (k key : String) (s : Ledger) (l : List ℚ)
    (hne : k ≠ key) : getKey k (s ++ [(key, l)]) = getKey k s := by
  induction s with
  | nil => simp [getKey, Ne.symm hne]
  | cons p rest ih =>
      obtain ⟨k0, v⟩ := p
      by_cases hk : k0 = k <;> simp [getKey, hk, ih]

theorem hasKey_append_self (key : String) (s : Ledger) (l : List ℚ) :
    hasKey key (s ++ [(key, l)]) = true := by
  induction s with
  | nil => simp [hasKey]
  | cons p rest ih =>
      obtain ⟨k0, v⟩ := p
      by_cases hk : k0 = key <;> simp [hasKey, hk, ih]

theorem getKey_append_self (key : String) (s : Ledger) (l : List ℚ)
    (h : hasKey key s = false) : getKey key (s ++ [(key, l)]) = l := by
  induction s with
  | nil => simp [getKey]
  | cons p rest ih =>
      obtain ⟨k0, v⟩ := p
      by_cases hk : k0 = key
      · simp [hasKey, hk] at h
      · simp [hasKey, hk] at h
        simp [getKey, hk, ih h]

/-- C1: build_score_object maps each of the three fixed labels to the
arithmetic mean of its recorded scores when the ledger has at least one
entry for it and to exactly 0 otherwise; the score_total field is the
arithmetic mean of the three per-label scores, divided by the fixed count
3; and on the all-empty ledger every field is 0. -/
theorem c1_build_score_object_correct (scores : Ledger)
    (wf : ∀ p ∈ scores, p.2 ≠ []) :
    (∀ k ∈ challenges,
        scoreField (build_score_object scores) ("score_" ++ k) =
          some (labelScore scores k)) ∧
    scoreField (build_score_object scores) "score_total" =
      some ((labelScore scores "2D" + labelScore scores "2.5D" +
        labelScore scores "3D") / 3) ∧
    build_score_object [] =
      [("score_2D", 0), ("score_2.5D", 0), ("score_3D", 0), ("score_total", 0)] := by
  refine ⟨?_, ?_, by simp [build_score_object_eq, challengeScore, hasKey]⟩
  · intro k hk
    fin_cases hk <;>
      · rw [build_score_object_eq]
        simp [scoreField, List.lookup, challengeScore_eq_labelScore scores wf]
  · rw [build_score_object_eq]
    simp [scoreField, List.lookup, challengeScore_eq_labelScore scores wf]

theorem c1_build_score_object_correct_witness :
    (∀ p ∈ [("2D", [(1 : ℚ), 3])], p.2 ≠ ([] : List ℚ)) ∧
    ((∀ k ∈ challenges,
        scoreField (build_score_object [("2D", [(1 : ℚ), 3])]) ("score_" ++ k) =
          some (labelScore [("2D", [(1 : ℚ), 3])] k)) ∧
    scoreField (build_score_object [("2D", [(1 : ℚ), 3])]) "score_total" =
      some ((labelScore [("2D", [(1 : ℚ), 3])] "2D" +
        labelScore [("2D", [(1 : ℚ), 3])] "2.5D" +
        labelScore [("2D", [(1 : ℚ), 3])] "3D") / 3) ∧
    build_score_object [] =
      [("score_2D", 0), ("score_2.5D", 0), ("score_3D", 0), ("score_total", 0)]) :=
  ⟨by simp, c1_build_score_object_correct [("2D", [(1 : ℚ), 3])] (by simp)⟩

/-- C7: build_score_object is pure and idempotent: threading the scores
dict through every dict operation it performs leaves the dict unchanged,
and a second call on the dict left by the first call produces the same
score object. -/
theorem c7_build_score_object_pure (scores : Ledger) :
    (build_score_object_st scores).2 = scores ∧
    (build_score_object_st ((build_score_object_st scores).2)).1 =
      (build_score_object_st scores).1 ∧
    (build_score_object_st scores).1 = build_score_object scores := by
  simp [build_score_object_st_eq]

/-- C8: appending a single score v under a previously-empty fixed label
moves that label from 0 to v (single-sample mean), leaves the other two
per-label scores unchanged, and moves score_total by exactly v / 3. -/
theorem c8_fresh_label_shift (scores : Ledger) (key : String) (v : ℚ)
    (hk : key ∈ challenges) (habs : hasKey key scores = false) :
    scoreField (build_score_object scores) ("score_" ++ key) = some 0 ∧
    scoreField (build_score_object (add_scores key v scores)) ("score_" ++ key) =
      some v ∧
    (∀ k ∈ challenges, k ≠ key →
      scoreField (build_score_object (add_scores key v scores)) ("score_" ++ k) =
        scoreField (build_score_object scores) ("score_" ++ k)) ∧
    (∃ t, scoreField (build_score_object scores) "score_total" = some t ∧
      scoreField (build_score_object (add_scores key v scores)) "score_total" =
        some (t + v / 3)) := by
  have hadd : add_scores key v scores = scores ++ [(key, [v])] := by
    simp [add_scores, habs]
  have hmean : npMean [v] = v := by simp [npMean]
  simp only [challenges, List.mem_cons, List.not_mem_nil, or_false] at hk
  rcases hk with rfl | rfl | rfl
  · have h1 : challengeScore (scores ++ [("2D", [v])]) "2D" = v := by
      simp [challengeScore, hasKey_append_self, getKey_append_self _ _ _ habs, hmean]
    have h2 : challengeScore (scores ++ [("2D", [v])]) "2.5D" = challengeScore scores "2.5D" := by
      simp [challengeScore, hasKey_append_fresh "2.5D" "2D" scores [v] (by decide),
        getKey_append_fresh "2.5D" "2D" scores [v] (by decide)]
    have h3 : challengeScore (scores ++ [("2D", [v])]) "3D" = challengeScore scores "3D" := by
      simp [challengeScore, hasKey_append_fresh "3D" "2D" scores [v] (by decide),
        getKey_append_fresh "3D" "2D" scores [v] (by decide)]
    have h0 : challengeScore scores "2D" = 0 := by simp [challengeScore, habs]
    refine ⟨?_, ?_, ?_,
      ⟨(challengeScore scores "2D" + challengeScore scores "2.5D" +
          challengeScore scores "3D") / 3, ?_, ?_⟩⟩
    · rw [build_score_object_eq]; simp [scoreField, List.lookup, h0]
    · rw [hadd, build_score_object_eq]; simp [scoreField, List.lookup, h1]
    · intro k hkm hne
      simp only [challenges, List.mem_cons, List.not_mem_nil, or_false] at hkm
      rcases hkm with rfl | rfl | rfl
      · exact absurd rfl hne
      · rw [hadd, build_score_object_eq, build_score_object_eq]
        simp [scoreField, List.lookup, h2]
      · rw [hadd, build_score_object_eq, build_score_object_eq]
        simp [scoreField, List.lookup, h3]
    · rw [build_score_object_eq]; simp [scoreField, List.lookup]
    · rw [hadd, build_score_object_eq]
      simp [scoreField, List.lookup, h1, h2, h3]
      rw [h0]; ring
  · have h1 : challengeScore (scores ++ [("2.5D", [v])]) "2.5D" = v := by
      simp [challengeScore, hasKey_append_self, getKey_append_self _ _ _ habs, hmean]
    have h2 : challengeScore (scores ++ [("2.5D", [v])]) "2D" = challengeScore scores "2D" := by
      simp [challengeScore, hasKey_append_fresh "2D" "2.5D" scores [v] (by decide),
        getKey_append_fresh "2D" "2.5D" scores [v] (by decide)]
    have h3 : challengeScore (scores ++ [("2.5D", [v])]) "3D" = challengeScore scores "3D" := by
      simp [challengeScore, hasKey_append_fresh "3D" "2.5D" scores [v] (by decide),
        getKey_append_fresh "3D" "2.5D" scores [v] (by decide)]
    have h0 : challengeScore scores "2.5D" = 0 := by simp [challengeScore, habs]
    refine ⟨?_, ?_, ?_,
      ⟨(challengeScore scores "2D" + challengeScore scores "2.5D" +
          challengeScore scores "3D") / 3, ?_, ?_⟩⟩
    · rw [build_score_object_eq]; simp [scoreField, List.lookup, h0]
    · rw [hadd, build_score_object_eq]; simp [scoreField, List.lookup, h1]
    · intro k hkm hne
      simp only [challenges, List.mem_cons, List.not_mem_nil, or_false] at hkm
      rcases hkm with rfl | rfl | rfl
      · rw [hadd, build_score_object_eq, build_score_object_eq]
        simp [scoreField, List.lookup, h2]
      · exact absurd rfl hne
      · rw [hadd, build_score_object_eq, build_score_object_eq]
        simp [scoreField, List.lookup, h3]
    · rw [build_score_object_eq]; simp [scoreField, List.lookup]
    · rw [hadd, build_score_object_eq]
      simp [scoreField, List.lookup, h1, h2, h3]
      rw [h0]; ring
  · have h1 : challengeScore (scores ++ [("3D", [v])]) "3D" = v := by
      simp [challengeScore, hasKey_append_self, getKey_append_self _ _ _ habs, hmean]
    have h2 : challengeScore (scores ++ [("3D", [v])]) "2D" = challengeScore scores "2D" := by
      simp [challengeScore, hasKey_append_fresh "2D" "3D" scores [v] (by decide),
        getKey_append_fresh "2D" "3D" scores [v] (by decide)]
    have h3 : challengeScore (scores ++ [("3D", [v])]) "2.5D" = challengeScore scores "2.5D" := by
      simp [challengeScore, hasKey_append_fresh "2.5D" "3D" scores [v] (by decide),
        getKey_append_fresh "2.5D" "3D" scores [v] (by decide)]
    have h0 : challengeScore scores "3D" = 0 := by simp [challengeScore, habs]
    refine ⟨?_, ?_, ?_,
      ⟨(challengeScore scores "2D" + challengeScore scores "2.5D" +
          challengeScore scores "3D") / 3, ?_, ?_⟩⟩
    · rw [build_score_object_eq]; simp [scoreField, List.lookup, h0]
    · rw [hadd, build_score_object_eq]; simp [scoreField, List.lookup, h1]
    · intro k hkm hne
      simp only [challenges, List.mem_cons, List.not_mem_nil, or_false] at hkm
      rcases hkm with rfl | rfl | rfl
      · rw [hadd, build_score_object_eq, build_score_object_eq]
        simp [scoreField, List.lookup, h2]
      · rw [hadd, build_score_object_eq, build_score_object_eq]
        simp [scoreField, List.lookup, h3]
      · exact absurd rfl hne
    · rw [build_score_object_eq]; simp [scoreField, List.lookup]
    · rw [hadd, build_score_object_eq]
      simp [scoreField, List.lookup, h1, h2, h3]
      rw [h0]; ring

theorem c8_fresh_label_shift_witness :
    ("2D" ∈ challenges ∧ hasKey "2D" [("3D", [(2 : ℚ)])] = false) ∧
    (scoreField (build_score_object [("3D", [(2 : ℚ)])]) ("score_" ++ "2D") = some 0 ∧
    scoreField (build_score_object (add_scores "2D" 5 [("3D", [(2 : ℚ)])])) ("score_" ++ "2D") =
      some 5 ∧
    (∀ k ∈ challenges, k ≠ "2D" →
      scoreField (build_score_object (add_scores "2D" 5 [("3D", [(2 : ℚ)])])) ("score_" ++ k) =
        scoreField (build_score_object [("3D", [(2 : ℚ)])]) ("score_" ++ k)) ∧
    (∃ t, scoreField (build_score_object [("3D", [(2 : ℚ)])]) "score_total" = some t ∧
      scoreField (build_score_object (add_scores "2D" 5 [("3D", [(2 : ℚ)])])) "score_total" =
        some (t + 5 / 3))) :=
  ⟨⟨by simp [challenges], by simp [hasKey]⟩,
    c8_fresh_label_shift [("3D", [(2 : ℚ)])] "2D" 5 (by simp [challenges]) (by simp [hasKey])⟩

/-- Observable events of an evaluation run, in the order the orchestrator
performs them: environment calls, controller step calls (with the
arguments passed), and controller lifecycle notifications. -/
inductive Event where
  | constructCtrl
  | envReset
  | envStep (action : Int)
  | envSetGoal
  | envEvaluateGoal (challenge : String) (score : ℚ)
  | ctrlStep (obs : Int) (reward : ℚ) (done : Bool)
  | startIntrinsicPhase
  | endIntrinsicPhase
  | startExtrinsicPhase
  | startExtrinsicTrial
  | endExtrinsicTrial
  | endExtrinsicPhase
  deriving DecidableEq

/-- The environment collaborator as a deterministic state machine over an
abstract state type: reset yields an observation, step yields
(observation, reward, done), set_goal and evaluateGoal as in the gym env
used by evaluate.py. -/
structure EnvOps (ES : Type) where
  reset : ES → ES × Int
  step : ES → Int → ES × Int × ℚ × Bool
  set_goal : ES → ES
  evaluateGoal : ES → ES × String × ℚ

/-- The controller as a deterministic state machine.  Its step may raise
(Except.error), modelling a Python exception propagating out of
controller.step; the lifecycle hooks are state transformers. -/
structure CtrlOps (CS : Type) where
  init : CS
  step : CS → Int → ℚ → Bool → Except String (CS × Int)
  start_intrinsic_phase : CS → CS
  end_intrinsic_phase : CS → CS
  start_extrinsic_phase : CS → CS
  start_extrinsic_trial : CS → CS
  end_extrinsic_trial : CS → CS

/-- Result of a (partial) run: normal value, propagated exception, or a
while-not-done loop that did not finish within the modelling fuel. -/
inductive Outcome (A : Type) where
  | ok (a : A)
  | exn (msg : String)
  | diverged
  deriving DecidableEq

/-- The evaluation_state record created at evaluate.py lines 107-122.
The score sub-dict is kept as an association list. -/
structure EvaluationState where
  state : String
  max_intrinsic_timesteps : Option ℕ
  max_extrinsic_timesteps : ℕ
  current_intrinsic_timestep : ℕ
  max_extrinsic_trials : ℕ
  num_extrinsic_trials_complete : ℕ
  progress_in_current_extrinsic_trial : ℕ
  score : List (String × ℚ)
  deriving DecidableEq

/-- The initial value of evaluation_state (evaluate.py lines 107-122);
nothing in evaluate ever writes to this record afterwards. -/
def initEvaluationState (intrinsic_timesteps : Option ℕ)
    (extrinsic_timesteps extrinsic_trials : ℕ) : EvaluationState :=
  ⟨"PENDING", intrinsic_timesteps, extrinsic_timesteps, 0, extrinsic_trials, 0, 0,
    [("score", 0), ("score_2D", 0), ("score_2.5D", 0), ("score_3D", 0),
     ("score_total", 0)]⟩

/-- The while-not-done loop shared by both phases (evaluate.py lines
160-166 and 215-218): while not done, ask the controller for an action
passing (observation, reward, done), then step the environment.  Fuel
bounds the modelled iteration count only; the source loop is unbounded. -/
def runLoop {ES CS : Type} (env : EnvOps ES) (ctrl : CtrlOps CS) :
    ℕ → ES → CS → Int → ℚ → Bool → List Event × Outcome (ES × CS)
  | fuel, es, cs, obs, reward, done =>
    if done then ([], Outcome.ok (es, cs))
    else
      match fuel with
      | 0 => ([], Outcome.diverged)
      | fuel + 1 =>
        match ctrl.step cs obs reward done with
        | Except.error e => ([Event.ctrlStep obs reward done], Outcome.exn e)
        | Except.ok (cs2, a) =>
          let r := env.step es a
          let rest := runLoop env ctrl fuel r.1 cs2 r.2.1 r.2.2.1 r.2.2.2
          (Event.ctrlStep obs reward done :: Event.envStep a :: rest.1, rest.2)

/-- The extrinsic trial loop (evaluate.py lines 198-231): per trial,
reset, reward=0, done=False, set_goal, start_extrinsic_trial, the step
loop, end_extrinsic_trial, evaluateGoal into add_scores, and a
build_score_object snapshot for the progress display. -/
def runTrials {ES CS : Type} (env : EnvOps ES) (ctrl : CtrlOps CS) (fuel : ℕ) :
    ℕ → ES → CS → Ledger → List Event × Outcome (ES × CS × Ledger)
  | 0, es, cs, scores => ([], Outcome.ok (es, cs, scores))
  | n + 1, es, cs, scores =>
    let r0 := env.reset es
    let es1 := env.set_goal r0.1
    let cs1 := ctrl.start_extrinsic_trial cs
    match runLoop env ctrl fuel es1 cs1 r0.2 0 false with
    | (tr, Outcome.ok (es2, cs2)) =>
      let cs3 := ctrl.end_extrinsic_trial cs2
      let g := env.evaluateGoal es2
      let snap := build_score_object_st (add_scores g.2.1 g.2.2 scores)
      let rest := runTrials env ctrl fuel n g.1 cs3 snap.2
      (Event.envReset :: Event.envSetGoal :: Event.startExtrinsicTrial :: tr ++
          Event.endExtrinsicTrial :: Event.envEvaluateGoal g.2.1 g.2.2 :: rest.1,
        rest.2)
    | (tr, Outcome.exn e) =>
      (Event.envReset :: Event.envSetGoal :: Event.startExtrinsicTrial :: tr,
        Outcome.exn e)
    | (tr, Outcome.diverged) =>
      (Event.envReset :: Event.envSetGoal :: Event.startExtrinsicTrial :: tr,
        Outcome.diverged)

/-- The intrinsic phase (evaluate.py lines 134-177): run only when the
normalized intrinsic timestep budget is positive; otherwise only a
warning is printed. -/
def intrinsicPhase {ES CS : Type} (env : EnvOps ES) (ctrl : CtrlOps CS)
    (fuel intrinsic_timesteps : ℕ) (es : ES) (cs : CS) :
    List Event × Outcome (ES × CS) :=
  if 0 < intrinsic_timesteps then
    let r0 := env.reset es
    let cs1 := ctrl.start_intrinsic_phase cs
    match runLoop env ctrl fuel r0.1 cs1 r0.2 0 false with
    | (tr, Outcome.ok (es1, cs2)) =>
      (Event.envReset :: Event.startIntrinsicPhase :: tr ++ [Event.endIntrinsicPhase],
        Outcome.ok (es1, ctrl.end_intrinsic_phase cs2))
    | (tr, Outcome.exn e) =>
      (Event.envReset :: Event.startIntrinsicPhase :: tr, Outcome.exn e)
    | (tr, Outcome.diverged) =>
      (Event.envReset :: Event.startIntrinsicPhase :: tr, Outcome.diverged)
  else ([], Outcome.ok (es, cs))

/-- Result of an evaluation run: the event trace, the evaluation_state
record as the run leaves it, and the outcome. -/
structure RunResult where
  trace : List Event
  finalState : EvaluationState
  outcome : Outcome ScoreOut
  deriving DecidableEq

/-- The body of evaluate after the BasePolicy check (evaluate.py lines
79-245).  The intrinsic and extrinsic timestep budgets are forwarded to
the environment (lines 81-82), modelled by the environment family being a
function of both; the orchestrator itself uses the intrinsic budget only
for the skip test (Python: not intrinsic_timesteps, then > 0), never to
bound a loop.  At the end the source calls end_extrinsic_trial once more
(line 243) in place of an end-of-phase notification. -/
def evaluateBody {ES CS : Type} (envFam : Option ℕ → ℕ → EnvOps ES) (es0 : ES)
    (ctrl : CtrlOps CS) (intrinsic_timesteps : Option ℕ)
    (extrinsic_timesteps extrinsic_trials fuel : ℕ) : RunResult :=
  let env := envFam intrinsic_timesteps extrinsic_timesteps
  let cs0 := ctrl.init
  let est := initEvaluationState intrinsic_timesteps extrinsic_timesteps extrinsic_trials
  let it := intrinsic_timesteps.getD 0
  match intrinsicPhase env ctrl fuel it es0 cs0 with
  | (tr1, Outcome.ok (es1, cs1)) =>
    let cs2 := ctrl.start_extrinsic_phase cs1
    match runTrials env ctrl fuel extrinsic_trials es1 cs2 [] with
    | (tr2, Outcome.ok (_, cs3, scores)) =>
      let _ := ctrl.end_extrinsic_trial cs3
      ⟨Event.constructCtrl :: tr1 ++ Event.startExtrinsicPhase :: tr2 ++
          [Event.endExtrinsicTrial],
        est, Outcome.ok (build_score_object scores)⟩
    | (tr2, Outcome.exn e) =>
      ⟨Event.constructCtrl :: tr1 ++ Event.startExtrinsicPhase :: tr2, est,
        Outcome.exn e⟩
    | (tr2, Outcome.diverged) =>
      ⟨Event.constructCtrl :: tr1 ++ Event.startExtrinsicPhase :: tr2, est,
        Outcome.diverged⟩
  | (tr1, Outcome.exn e) => ⟨Event.constructCtrl :: tr1, est, Outcome.exn e⟩
  | (tr1, Outcome.diverged) => ⟨Event.constructCtrl :: tr1, est, Outcome.diverged⟩

/-- The error message raised at evaluate.py lines 70-77 when the supplied
Controller is not a subclass of BasePolicy. -/
def subclassError : String :=
  "Supplied Controller is not a Sub-Class of real_robots.policy.BasePolicy . Please ensure that the supplied controller class is derived from real_robots.policy.BasePolicy , as described in the example here at: https://github.com/AIcrowd/real_robots#usage"

/-- evaluate (evaluate.py lines 33-245).  The subclass check (line 69)
happens once, before the controller is constructed and before any
environment interaction of the run; when it fails the raised exception
propagates and the local evaluation_state is never even created. -/
def evaluate {ES CS : Type} (isSubclassOfBasePolicy : Bool)
    (envFam : Option ℕ → ℕ → EnvOps ES) (es0 : ES) (ctrl : CtrlOps CS)
    (intrinsic_timesteps : Option ℕ) (extrinsic_timesteps extrinsic_trials fuel : ℕ) :
    List Event × Option EvaluationState × Outcome ScoreOut :=
  if isSubclassOfBasePolicy then
    let r := evaluateBody envFam es0 ctrl intrinsic_timesteps extrinsic_timesteps
      extrinsic_trials fuel
    (r.trace, some r.finalState, r.outcome)
  else ([], none, Outcome.exn subclassError)

/-- Number of events satisfying a predicate in a trace. -/
def countEv (p : Event → Bool) (tr : List Event) : ℕ := (tr.filter p).length

def isCtrlStepEv : Event → Bool
  | Event.ctrlStep _ _ _ => true
  | _ => false

def isEnvStepEv : Event → Bool
  | Event.envStep _ => true
  | _ => false

def isEnvResetEv : Event → Bool
  | Event.envReset => true
  | _ => false

def isSetGoalEv : Event → Bool
  | Event.envSetGoal => true
  | _ => false

def isEvalGoalEv : Event → Bool
  | Event.envEvaluateGoal _ _ => true
  | _ => false

def isStartTrialEv : Event → Bool
  | Event.startExtrinsicTrial => true
  | _ => false

def isEndTrialEv : Event → Bool
  | Event.endExtrinsicTrial => true
  | _ => false

def isStartIntrEv : Event → Bool
  | Event.startIntrinsicPhase => true
  | _ => false

def isEndIntrEv : Event → Bool
  | Event.endIntrinsicPhase => true
  | _ => false

def isEndPhaseEv : Event → Bool
  | Event.endExtrinsicPhase => true
  | _ => false

def isTrialMarkEv (e : Event) : Bool := isStartTrialEv e || isEndTrialEv e

/-- Every ctrlStep event records done = false (the loop guard). -/
def ctrlDoneFalse : Event → Bool
  | Event.ctrlStep _ _ d => !d
  | _ => true

/-- Reward argument of the first controller step call in a trace. -/
def firstCtrlReward : List Event → Option ℚ
  | [] => none
  | Event.ctrlStep _ r _ :: _ => some r
  | _ :: rest => firstCtrlReward rest

theorem countEv_append (p : Event → Bool) (xs ys : List Event) :
    countEv p (xs ++ ys) = countEv p xs + countEv p ys := by
  simp [countEv, List.filter_append]

theorem countEv_cons (p : Event → Bool) (e : Event) (xs : List Event) :
    countEv p (e :: xs) = (if p e then 1 else 0) + countEv p xs := by
  by_cases h : p e <;> simp [countEv, List.filter_cons, h, Nat.add_comm]

theorem countEv_nil (p : Event → Bool) : countEv p [] = 0 := rfl

theorem countEv_zero_of_all (p : Event → Bool) (tr : List Event)
    (h : ∀ e ∈ tr, p e = false) : countEv p tr = 0 := by
  have : tr.filter p = [] := List.filter_eq_nil.mpr (fun e he => by simp [h e he])
  simp [countEv, this]

theorem runLoop_mem {ES CS : Type} (env : EnvOps ES) (ctrl : CtrlOps CS) :
    ∀ (fuel : ℕ) (es : ES) (cs : CS) (obs : Int) (reward : ℚ) (done : Bool),
      ∀ e ∈ (runLoop env ctrl fuel es cs obs reward done).1,
        isCtrlStepEv e = true ∨ isEnvStepEv e = true := by
  intro fuel
  induction fuel with
  | zero =>
      intro es cs obs reward done e he
      cases done <;> simp [runLoop] at he
  | succ n ih =>
      intro es cs obs reward done e he
      cases done with
      | true => simp [runLoop] at he
      | false =>
          cases hstep : ctrl.step cs obs reward false with
          | error msg => simp [runLoop, hstep] at he; simp [he, isCtrlStepEv]
          | ok pr =>
              obtain ⟨cs2, a⟩ := pr
              simp [runLoop, hstep] at he
              rcases he with rfl | rfl | hrest
              · simp [isCtrlStepEv]
              · simp [isEnvStepEv]
              · exact ih _ _ _ _ _ e hrest

theorem runLoop_count_zero {ES CS : Type} (env : EnvOps ES) (ctrl : CtrlOps CS)
    (fuel : ℕ) (es : ES) (cs : CS) (obs : Int) (reward : ℚ) (done : Bool)
    (p : Event → Bool) (hc : ∀ o r d, p (Event.ctrlStep o r d) = false)
    (he : ∀ a, p (Event.envStep a) = false) :
    countEv p (runLoop env ctrl fuel es cs obs reward done).1 = 0 := by
  apply countEv_zero_of_all
  intro e hmem
  rcases runLoop_mem env ctrl fuel es cs obs reward done e hmem with h | h
  · cases e <;> simp [isCtrlStepEv] at h <;> apply hc
  · cases e <;> simp [isEnvStepEv] at h <;> apply he

theorem runLoop_all_done_false {ES CS : Type} (env : EnvOps ES) (ctrl : CtrlOps CS) :
    ∀ (fuel : ℕ) (es : ES) (cs : CS) (obs : Int) (reward : ℚ) (done : Bool),
      (runLoop env ctrl fuel es cs obs reward done).1.all ctrlDoneFalse = true := by
  intro fuel
  induction fuel with
  | zero => intro es cs obs reward done; cases done <;> simp [runLoop]
  | succ n ih =>
      intro es cs obs reward done
      cases done with
      | true => simp [runLoop]
      | false =>
          cases hstep : ctrl.step cs obs reward false with
          | error msg => simp [runLoop, hstep, ctrlDoneFalse]
          | ok pr =>
              obtain ⟨cs2, a⟩ := pr
              have hrec := ih (env.step es a).1 cs2 (env.step es a).2.1
                (env.step es a).2.2.1 (env.step es a).2.2.2
              simp [List.all_eq_true] at hrec
              simp [runLoop, hstep, ctrlDoneFalse, List.all_eq_true]
              exact hrec

theorem runLoop_first_or_empty {ES CS : Type} (env : EnvOps ES) (ctrl : CtrlOps CS)
    (fuel : ℕ) (es : ES) (cs : CS) (obs : Int) (reward : ℚ) :
    ((runLoop env ctrl fuel es cs obs reward false).1 = [] ∧
      (runLoop env ctrl fuel es cs obs reward false).2 = Outcome.diverged) ∨
    firstCtrlReward (runLoop env ctrl fuel es cs obs reward false).1 = some reward := by
  cases fuel with
  | zero => left; simp [runLoop]
  | succ n =>
      right
      cases hstep : ctrl.step cs obs reward false with
      | error msg => simp [runLoop, hstep, firstCtrlReward]
      | ok pr =>
          obtain ⟨cs2, a⟩ := pr
          simp [runLoop, hstep, firstCtrlReward]

/-- One iteration of the while-not-done loop body as a state transformer
on (environment state, controller state, observation, reward, done). -/
def advanceLoop {ES CS : Type} (env : EnvOps ES) (ctrl : CtrlOps CS)
    (s : ES × CS × Int × ℚ × Bool) : Except String (ES × CS × Int × ℚ × Bool) :=
  match ctrl.step s.2.1 s.2.2.1 s.2.2.2.1 s.2.2.2.2 with
  | Except.error e => Except.error e
  | Except.ok pr =>
      let r := env.step s.1 pr.2
      Except.ok (r.1, pr.1, r.2.1, r.2.2.1, r.2.2.2)

/-- j-fold iteration of the loop body. -/
def iterLoop {ES CS : Type} (env : EnvOps ES) (ctrl : CtrlOps CS) :
    ℕ → ES × CS × Int × ℚ × Bool → Except String (ES × CS × Int × ℚ × Bool)
  | 0, s => Except.ok s
  | j + 1, s =>
      match advanceLoop env ctrl s with
      | Except.error e => Except.error e
      | Except.ok s2 => iterLoop env ctrl j s2

/-- Whether the environment done flag is set after exactly j loop
iterations from state s (false as well if an exception interrupts
them). -/
def doneAfter {ES CS : Type} (env : EnvOps ES) (ctrl : CtrlOps CS)
    (s : ES × CS × Int × ℚ × Bool) (j : ℕ) : Bool :=
  match iterLoop env ctrl j s with
  | Except.ok s2 => s2.2.2.2.2
  | Except.error _ => false

theorem iterLoop_succ_shift {ES CS : Type} (env : EnvOps ES) (ctrl : CtrlOps CS)
    (j : ℕ) (s s1 : ES × CS × Int × ℚ × Bool)
    (h : advanceLoop env ctrl s = Except.ok s1) :
    iterLoop env ctrl (j + 1) s = iterLoop env ctrl j s1 := by
  simp [iterLoop, h]

theorem doneAfter_succ_shift {ES CS : Type} (env : EnvOps ES) (ctrl : CtrlOps CS)
    (j : ℕ) (s s1 : ES × CS × Int × ℚ × Bool)
    (h : advanceLoop env ctrl s = Except.ok s1) :
    doneAfter env ctrl s (j + 1) = doneAfter env ctrl s1 j := by
  simp [doneAfter, iterLoop_succ_shift env ctrl j s s1 h]

theorem runLoop_stops_at_first_done {ES CS : Type} (env : EnvOps ES) (ctrl : CtrlOps CS) :
    ∀ (k fuel : ℕ) (s : ES × CS × Int × ℚ × Bool),
      doneAfter env ctrl s k = true →
      (∀ j < k, doneAfter env ctrl s j = false) →
      k ≤ fuel →
      (∃ es2 cs2, (runLoop env ctrl fuel s.1 s.2.1 s.2.2.1 s.2.2.2.1 s.2.2.2.2).2 =
        Outcome.ok (es2, cs2)) ∧
      countEv isCtrlStepEv (runLoop env ctrl fuel s.1 s.2.1 s.2.2.1 s.2.2.2.1 s.2.2.2.2).1 = k ∧
      countEv isEnvStepEv (runLoop env ctrl fuel s.1 s.2.1 s.2.2.1 s.2.2.2.1 s.2.2.2.2).1 = k := by
  intro k
  induction k with
  | zero =>
      intro fuel s hdone _ _
      obtain ⟨es, cs, obs, reward, d⟩ := s
      simp [doneAfter, iterLoop] at hdone
      subst hdone
      cases fuel <;> simp [runLoop, countEv]
  | succ k ih =>
      intro fuel s hdone hmin hfuel
      obtain ⟨es, cs, obs, reward, d⟩ := s
      have hd0 : d = false := by
        have := hmin 0 (Nat.succ_pos k)
        simpa [doneAfter, iterLoop] using this
      subst hd0
      cases hadv : advanceLoop env ctrl (es, cs, obs, reward, false) with
      | error msg =>
          exfalso
          have : doneAfter env ctrl (es, cs, obs, reward, false) (k + 1) = false := by
            simp [doneAfter, iterLoop, hadv]
          rw [this] at hdone
          exact Bool.false_ne_true hdone
      | ok s1 =>
          have hdone1 : doneAfter env ctrl s1 k = true := by
            rw [← doneAfter_succ_shift env ctrl k _ s1 hadv]
            exact hdone
          have hmin1 : ∀ j < k, doneAfter env ctrl s1 j = false := by
            intro j hj
            rw [← doneAfter_succ_shift env ctrl j _ s1 hadv]
            exact hmin (j + 1) (Nat.succ_lt_succ hj)
          cases fuel with
          | zero => exact absurd hfuel (by omega)
          | succ f =>
              have hf : k ≤ f := Nat.lt_succ_iff.mp hfuel
              cases hstep : ctrl.step cs obs reward false with
              | error msg =>
                  exfalso
                  simp [advanceLoop, hstep] at hadv
              | ok pr =>
                  obtain ⟨cs2, a⟩ := pr
                  have hs1 : s1 = ((env.step es a).1, cs2, (env.step es a).2.1,
                      (env.step es a).2.2.1, (env.step es a).2.2.2) := by
                    simp [advanceLoop, hstep] at hadv
                    exact hadv.symm
                  have hrec := ih f s1 hdone1 hmin1 hf
                  rw [hs1] at hrec
                  obtain ⟨⟨es2, cs3, hout⟩, hc, he⟩ := hrec
                  have hrl : runLoop env ctrl (f + 1) es cs obs reward false =
                      (Event.ctrlStep obs reward false :: Event.envStep a ::
                        (runLoop env ctrl f (env.step es a).1 cs2 (env.step es a).2.1
                          (env.step es a).2.2.1 (env.step es a).2.2.2).1,
                       (runLoop env ctrl f (env.step es a).1 cs2 (env.step es a).2.1
                          (env.step es a).2.2.1 (env.step es a).2.2.2).2) := by
                    simp [runLoop, hstep]
                  refine ⟨⟨es2, cs3, ?_⟩, ?_, ?_⟩
                  · rw [hrl]
                    exact hout
                  · rw [hrl]
                    simp only [countEv_cons, isCtrlStepEv, isEnvStepEv]
                    simp only [countEv] at hc ⊢
                    simp [hc]
                    omega
                  · rw [hrl]
                    simp only [countEv_cons, isCtrlStepEv, isEnvStepEv]
                    simp only [countEv] at he ⊢
                    simp [he]
                    omega

/-- The strictly alternating start/end trial marker sequence of n trials. -/
def altMarks : ℕ → List Event
  | 0 => []
  | n + 1 => Event.startExtrinsicTrial :: Event.endExtrinsicTrial :: altMarks n

theorem runTrials_succ_ok {ES CS : Type} (env : EnvOps ES) (ctrl : CtrlOps CS)
    (fuel n : ℕ) (es : ES) (cs : CS) (scores : Ledger) (tr : List Event)
    (es2 : ES) (cs2 : CS)
    (hr : runLoop env ctrl fuel (env.set_goal (env.reset es).1)
        (ctrl.start_extrinsic_trial cs) (env.reset es).2 0 false =
      (tr, Outcome.ok (es2, cs2))) :
    runTrials env ctrl fuel (n + 1) es cs scores =
      (Event.envReset :: Event.envSetGoal :: Event.startExtrinsicTrial :: tr ++
          Event.endExtrinsicTrial ::
          Event.envEvaluateGoal (env.evaluateGoal es2).2.1 (env.evaluateGoal es2).2.2 ::
          (runTrials env ctrl fuel n (env.evaluateGoal es2).1
            (ctrl.end_extrinsic_trial cs2)
            (build_score_object_st (add_scores (env.evaluateGoal es2).2.1
              (env.evaluateGoal es2).2.2 scores)).2).1,
        (runTrials env ctrl fuel n (env.evaluateGoal es2).1
          (ctrl.end_extrinsic_trial cs2)
          (build_score_object_st (add_scores (env.evaluateGoal es2).2.1
            (env.evaluateGoal es2).2.2 scores)).2).2) := by
  simp [runTrials, hr]

theorem runTrials_succ_exn {ES CS : Type} (env : EnvOps ES) (ctrl : CtrlOps CS)
    (fuel n : ℕ) (es : ES) (cs : CS) (scores : Ledger) (tr : List Event) (e : String)
    (hr : runLoop env ctrl fuel (env.set_goal (env.reset es).1)
        (ctrl.start_extrinsic_trial cs) (env.reset es).2 0 false =
      (tr, Outcome.exn e)) :
    runTrials env ctrl fuel (n + 1) es cs scores =
      (Event.envReset :: Event.envSetGoal :: Event.startExtrinsicTrial :: tr,
        Outcome.exn e) := by
  simp [runTrials, hr]

theorem runTrials_succ_diverged {ES CS : Type} (env : EnvOps ES) (ctrl : CtrlOps CS)
    (fuel n : ℕ) (es : ES) (cs : CS) (scores : Ledger) (tr : List Event)
    (hr : runLoop env ctrl fuel (env.set_goal (env.reset es).1)
        (ctrl.start_extrinsic_trial cs) (env.reset es).2 0 false =
      (tr, Outcome.diverged)) :
    runTrials env ctrl fuel (n + 1) es cs scores =
      (Event.envReset :: Event.envSetGoal :: Event.startExtrinsicTrial :: tr,
        Outcome.diverged) := by
  simp [runTrials, hr]

theorem runLoop_filter_nil {ES CS : Type} (env : EnvOps ES) (ctrl : CtrlOps CS)
    (fuel : ℕ) (es : ES) (cs : CS) (obs : Int) (reward : ℚ) (done : Bool)
    (p : Event → Bool) (hc : ∀ o r d, p (Event.ctrlStep o r d) = false)
    (he : ∀ a, p (Event.envStep a) = false) :
    (runLoop env ctrl fuel es cs obs reward done).1.filter p = [] := by
  apply List.filter_eq_nil.mpr
  intro e hmem
  rcases runLoop_mem env ctrl fuel es cs obs reward done e hmem with h | h
  · cases e <;> simp [isCtrlStepEv] at h
    simp [hc]
  · cases e <;> simp [isEnvStepEv] at h
    simp [he]

theorem runTrials_ok_facts {ES CS : Type} (env : EnvOps ES) (ctrl : CtrlOps CS)
    (fuel : ℕ) :
    ∀ (n : ℕ) (es : ES) (cs : CS) (scores : Ledger) (tr : List Event)
      (a : ES × CS × Ledger),
      runTrials env ctrl fuel n es cs scores = (tr, Outcome.ok a) →
      countEv isEnvResetEv tr = n ∧ countEv isSetGoalEv tr = n ∧
      countEv isEvalGoalEv tr = n ∧ countEv isStartTrialEv tr = n ∧
      countEv isEndTrialEv tr = n ∧ tr.filter isTrialMarkEv = altMarks n := by
  intro n
  induction n with
  | zero =>
      intro es cs scores tr a h
      simp [runTrials] at h
      obtain ⟨rfl, -⟩ := h
      simp [countEv, altMarks]
  | succ n ih =>
      intro es cs scores tr a h
      rcases hrl : runLoop env ctrl fuel (env.set_goal (env.reset es).1)
          (ctrl.start_extrinsic_trial cs) (env.reset es).2 0 false with ⟨tr0, out⟩
      cases out with
      | ok pr =>
          obtain ⟨es2, cs2⟩ := pr
          rw [runTrials_succ_ok env ctrl fuel n es cs scores tr0 es2 cs2 hrl] at h
          have h1 := congrArg Prod.fst h
          have h2 := congrArg Prod.snd h
          simp only at h1 h2
          have hrec := ih (env.evaluateGoal es2).1 (ctrl.end_extrinsic_trial cs2)
            (build_score_object_st (add_scores (env.evaluateGoal es2).2.1
              (env.evaluateGoal es2).2.2 scores)).2
            (runTrials env ctrl fuel n (env.evaluateGoal es2).1
              (ctrl.end_extrinsic_trial cs2)
              (build_score_object_st (add_scores (env.evaluateGoal es2).2.1
                (env.evaluateGoal es2).2.2 scores)).2).1 a (by rw [← h2])
          obtain ⟨hr1, hr2, hr3, hr4, hr5, hr6⟩ := hrec
          subst h1
          have hz1 := runLoop_count_zero env ctrl fuel (env.set_goal (env.reset es).1)
            (ctrl.start_extrinsic_trial cs) (env.reset es).2 0 false isEnvResetEv
            (by intro o r d; rfl) (by intro a2; rfl)
          have hz2 := runLoop_count_zero env ctrl fuel (env.set_goal (env.reset es).1)
            (ctrl.start_extrinsic_trial cs) (env.reset es).2 0 false isSetGoalEv
            (by intro o r d; rfl) (by intro a2; rfl)
          have hz3 := runLoop_count_zero env ctrl fuel (env.set_goal (env.reset es).1)
            (ctrl.start_extrinsic_trial cs) (env.reset es).2 0 false isEvalGoalEv
            (by intro o r d; rfl) (by intro a2; rfl)
          have hz4 := runLoop_count_zero env ctrl fuel (env.set_goal (env.reset es).1)
            (ctrl.start_extrinsic_trial cs) (env.reset es).2 0 false isStartTrialEv
            (by intro o r d; rfl) (by intro a2; rfl)
          have hz5 := runLoop_count_zero env ctrl fuel (env.set_goal (env.reset es).1)
            (ctrl.start_extrinsic_trial cs) (env.reset es).2 0 false isEndTrialEv
            (by intro o r d; rfl) (by intro a2; rfl)
          have hzf := runLoop_filter_nil env ctrl fuel (env.set_goal (env.reset es).1)
            (ctrl.start_extrinsic_trial cs) (env.reset es).2 0 false isTrialMarkEv
            (by intro o r d; rfl) (by intro a2; rfl)
          rw [hrl] at hz1 hz2 hz3 hz4 hz5 hzf
          simp only at hz1 hz2 hz3 hz4 hz5 hzf
          refine ⟨?_, ?_, ?_, ?_, ?_, ?_⟩
          · simp [countEv_cons, countEv_append, isEnvResetEv, isSetGoalEv,
              isEvalGoalEv, isStartTrialEv, isEndTrialEv, hz1, hr1]
            omega
          · simp [countEv_cons, countEv_append, isEnvResetEv, isSetGoalEv,
              isEvalGoalEv, isStartTrialEv, isEndTrialEv, hz2, hr2]
            omega
          · simp [countEv_cons, countEv_append, isEnvResetEv, isSetGoalEv,
              isEvalGoalEv, isStartTrialEv, isEndTrialEv, hz3, hr3]
            omega
          · simp [countEv_cons, countEv_append, isEnvResetEv, isSetGoalEv,
              isEvalGoalEv, isStartTrialEv, isEndTrialEv, hz4, hr4]
            omega
          · simp [countEv_cons, countEv_append, isEnvResetEv, isSetGoalEv,
              isEvalGoalEv, isStartTrialEv, isEndTrialEv, hz5, hr5]
            omega
          · simp [List.filter_cons, List.filter_append, isTrialMarkEv,
              isStartTrialEv, isEndTrialEv, isEnvResetEv, isSetGoalEv,
              isEvalGoalEv, hzf, hr6, altMarks]
      | exn e =>
          rw [runTrials_succ_exn env ctrl fuel n es cs scores tr0 e hrl] at h
          have h2 := congrArg Prod.snd h
          simp at h2
      | diverged =>
          rw [runTrials_succ_diverged env ctrl fuel n es cs scores tr0 hrl] at h
          have h2 := congrArg Prod.snd h
          simp at h2

theorem runTrials_exn_counts {ES CS : Type} (env : EnvOps ES) (ctrl : CtrlOps CS)
    (fuel : ℕ) :
    ∀ (n : ℕ) (es : ES) (cs : CS) (scores : Ledger) (tr : List Event) (e : String),
      runTrials env ctrl fuel n es cs scores = (tr, Outcome.exn e) →
      ∃ k, k < n ∧ countEv isEnvResetEv tr = k + 1 ∧
        countEv isSetGoalEv tr = k + 1 ∧ countEv isStartTrialEv tr = k + 1 ∧
        countEv isEvalGoalEv tr = k ∧ countEv isEndTrialEv tr = k := by
  intro n
  induction n with
  | zero =>
      intro es cs scores tr e h
      simp [runTrials] at h
  | succ n ih =>
      intro es cs scores tr e h
      rcases hrl : runLoop env ctrl fuel (env.set_goal (env.reset es).1)
          (ctrl.start_extrinsic_trial cs) (env.reset es).2 0 false with ⟨tr0, out⟩
      cases out with
      | ok pr =>
          obtain ⟨es2, cs2⟩ := pr
          rw [runTrials_succ_ok env ctrl fuel n es cs scores tr0 es2 cs2 hrl] at h
          have h1 := congrArg Prod.fst h
          have h2 := congrArg Prod.snd h
          simp only at h1 h2
          have hrec := ih (env.evaluateGoal es2).1 (ctrl.end_extrinsic_trial cs2)
            (build_score_object_st (add_scores (env.evaluateGoal es2).2.1
              (env.evaluateGoal es2).2.2 scores)).2
            (runTrials env ctrl fuel n (env.evaluateGoal es2).1
              (ctrl.end_extrinsic_trial cs2)
              (build_score_object_st (add_scores (env.evaluateGoal es2).2.1
                (env.evaluateGoal es2).2.2 scores)).2).1 e (by rw [← h2])
          obtain ⟨k, hk, hr1, hr2, hr3, hr4, hr5⟩ := hrec
          subst h1
          have hz1 := runLoop_count_zero env ctrl fuel (env.set_goal (env.reset es).1)
            (ctrl.start_extrinsic_trial cs) (env.reset es).2 0 false isEnvResetEv
            (by intro o r d; rfl) (by intro a2; rfl)
          have hz2 := runLoop_count_zero env ctrl fuel (env.set_goal (env.reset es).1)
            (ctrl.start_extrinsic_trial cs) (env.reset es).2 0 false isSetGoalEv
            (by intro o r d; rfl) (by intro a2; rfl)
          have hz3 := runLoop_count_zero env ctrl fuel (env.set_goal (env.reset es).1)
            (ctrl.start_extrinsic_trial cs) (env.reset es).2 0 false isEvalGoalEv
            (by intro o r d; rfl) (by intro a2; rfl)
          have hz4 := runLoop_count_zero env ctrl fuel (env.set_goal (env.reset es).1)
            (ctrl.start_extrinsic_trial cs) (env.reset es).2 0 false isStartTrialEv
            (by intro o r d; rfl) (by intro a2; rfl)
          have hz5 := runLoop_count_zero env ctrl fuel (env.set_goal (env.reset es).1)
            (ctrl.start_extrinsic_trial cs) (env.reset es).2 0 false isEndTrialEv
            (by intro o r d; rfl) (by intro a2; rfl)
          rw [hrl] at hz1 hz2 hz3 hz4 hz5
          simp only at hz1 hz2 hz3 hz4 hz5
          refine ⟨k + 1, by omega, ?_, ?_, ?_, ?_, ?_⟩
          · simp [countEv_cons, countEv_append, isEnvResetEv, isSetGoalEv,
              isEvalGoalEv, isStartTrialEv, isEndTrialEv, hz1, hr1]
            omega
          · simp [countEv_cons, countEv_append, isEnvResetEv, isSetGoalEv,
              isEvalGoalEv, isStartTrialEv, isEndTrialEv, hz2, hr2]
            omega
          · simp [countEv_cons, countEv_append, isEnvResetEv, isSetGoalEv,
              isEvalGoalEv, isStartTrialEv, isEndTrialEv, hz4, hr3]
            omega
          · simp [countEv_cons, countEv_append, isEnvResetEv, isSetGoalEv,
              isEvalGoalEv, isStartTrialEv, isEndTrialEv, hz3, hr4]
            omega
          · simp [countEv_cons, countEv_append, isEnvResetEv, isSetGoalEv,
              isEvalGoalEv, isStartTrialEv, isEndTrialEv, hz5, hr5]
            omega
      | exn e0 =>
          rw [runTrials_succ_exn env ctrl fuel n es cs scores tr0 e0 hrl] at h
          have h1 := congrArg Prod.fst h
          simp only at h1
          subst h1
          have hz1 := runLoop_count_zero env ctrl fuel (env.set_goal (env.reset es).1)
            (ctrl.start_extrinsic_trial cs) (env.reset es).2 0 false isEnvResetEv
            (by intro o r d; rfl) (by intro a2; rfl)
          have hz2 := runLoop_count_zero env ctrl fuel (env.set_goal (env.reset es).1)
            (ctrl.start_extrinsic_trial cs) (env.reset es).2 0 false isSetGoalEv
            (by intro o r d; rfl) (by intro a2; rfl)
          have hz3 := runLoop_count_zero env ctrl fuel (env.set_goal (env.reset es).1)
            (ctrl.start_extrinsic_trial cs) (env.reset es).2 0 false isEvalGoalEv
            (by intro o r d; rfl) (by intro a2; rfl)
          have hz4 := runLoop_count_zero env ctrl fuel (env.set_goal (env.reset es).1)
            (ctrl.start_extrinsic_trial cs) (env.reset es).2 0 false isStartTrialEv
            (by intro o r d; rfl) (by intro a2; rfl)
          have hz5 := runLoop_count_zero env ctrl fuel (env.set_goal (env.reset es).1)
            (ctrl.start_extrinsic_trial cs) (env.reset es).2 0 false isEndTrialEv
            (by intro o r d; rfl) (by intro a2; rfl)
          rw [hrl] at hz1 hz2 hz3 hz4 hz5
          simp only at hz1 hz2 hz3 hz4 hz5
          refine ⟨0, Nat.succ_pos n, ?_, ?_, ?_, ?_, ?_⟩ <;>
            simp [countEv_cons, isEnvResetEv, isSetGoalEv, isEvalGoalEv,
              isStartTrialEv, isEndTrialEv, hz1, hz2, hz3, hz4, hz5]
      | diverged =>
          rw [runTrials_succ_diverged env ctrl fuel n es cs scores tr0 hrl] at h
          have h2 := congrArg Prod.snd h
          simp at h2

theorem runTrials_count_zero {ES CS : Type} (env : EnvOps ES) (ctrl : CtrlOps CS)
    (fuel : ℕ) (p : Event → Bool)
    (h1 : p Event.envReset = false) (h2 : p Event.envSetGoal = false)
    (h3 : p Event.startExtrinsicTrial = false)
    (h4 : p Event.endExtrinsicTrial = false)
    (h5 : ∀ c s, p (Event.envEvaluateGoal c s) = false)
    (h6 : ∀ o r d, p (Event.ctrlStep o r d) = false)
    (h7 : ∀ a, p (Event.envStep a) = false) :
    ∀ (n : ℕ) (es : ES) (cs : CS) (scores : Ledger),
      countEv p (runTrials env ctrl fuel n es cs scores).1 = 0 := by
  intro n
  induction n with
  | zero => intro es cs scores; simp [runTrials, countEv]
  | succ n ih =>
      intro es cs scores
      rcases hrl : runLoop env ctrl fuel (env.set_goal (env.reset es).1)
          (ctrl.start_extrinsic_trial cs) (env.reset es).2 0 false with ⟨tr0, out⟩
      have hz := runLoop_count_zero env ctrl fuel (env.set_goal (env.reset es).1)
        (ctrl.start_extrinsic_trial cs) (env.reset es).2 0 false p h6 h7
      rw [hrl] at hz
      simp only at hz
      cases out with
      | ok pr =>
          obtain ⟨es2, cs2⟩ := pr
          rw [runTrials_succ_ok env ctrl fuel n es cs scores tr0 es2 cs2 hrl]
          simp [countEv_cons, countEv_append, h1, h2, h3, h4, h5, hz, ih]
      | exn e0 =>
          rw [runTrials_succ_exn env ctrl fuel n es cs scores tr0 e0 hrl]
          simp [countEv_cons, h1, h2, h3, hz]
      | diverged =>
          rw [runTrials_succ_diverged env ctrl fuel n es cs scores tr0 hrl]
          simp [countEv_cons, h1, h2, h3, hz]

/-- Every environment reset in the trace is followed (before any further
controller step) by a first controller step whose reward argument is 0,
or by no controller step at all. -/
def rewardZeroAfterReset : List Event → Bool
  | [] => true
  | Event.envReset :: rest =>
      (match firstCtrlReward rest with
       | none => true
       | some r => decide (r = 0)) && rewardZeroAfterReset rest
  | _ :: rest => rewardZeroAfterReset rest

theorem firstCtrlReward_none_of_all (xs : List Event)
    (h : ∀ e ∈ xs, isCtrlStepEv e = false) : firstCtrlReward xs = none := by
  induction xs with
  | nil => rfl
  | cons e rest ih =>
      cases e with
      | ctrlStep o r d => simpa [isCtrlStepEv] using h _ (List.mem_cons_self _ _)
      | _ =>
          simp only [firstCtrlReward]
          exact ih (fun e2 he2 => h e2 (List.mem_cons_of_mem _ he2))

theorem firstCtrlReward_append_none (xs ys : List Event)
    (h : ∀ e ∈ xs, isCtrlStepEv e = false) :
    firstCtrlReward (xs ++ ys) = firstCtrlReward ys := by
  induction xs with
  | nil => rfl
  | cons e rest ih =>
      cases e with
      | ctrlStep o r d => simpa [isCtrlStepEv] using h _ (List.mem_cons_self _ _)
      | _ =>
          simp only [List.cons_append, firstCtrlReward]
          exact ih (fun e2 he2 => h e2 (List.mem_cons_of_mem _ he2))

theorem firstCtrlReward_append_some (xs ys : List Event) (r : ℚ)
    (h : firstCtrlReward xs = some r) :
    firstCtrlReward (xs ++ ys) = some r := by
  induction xs with
  | nil => simp [firstCtrlReward] at h
  | cons e rest ih =>
      cases e with
      | ctrlStep o r2 d =>
          simp [firstCtrlReward] at h
          simp [firstCtrlReward, h]
      | _ =>
          simp only [firstCtrlReward] at h
          simp only [List.cons_append, firstCtrlReward]
          exact ih h

theorem rz_append_skip (xs ys : List Event)
    (h : ∀ e ∈ xs, isEnvResetEv e = false) :
    rewardZeroAfterReset (xs ++ ys) = rewardZeroAfterReset ys := by
  induction xs with
  | nil => rfl
  | cons e rest ih =>
      cases e with
      | envReset => simpa [isEnvResetEv] using h _ (List.mem_cons_self _ _)
      | _ =>
          simp only [List.cons_append, rewardZeroAfterReset]
          exact ih (fun e2 he2 => h e2 (List.mem_cons_of_mem _ he2))

theorem runLoop_no_reset {ES CS : Type} (env : EnvOps ES) (ctrl : CtrlOps CS)
    (fuel : ℕ) (es : ES) (cs : CS) (obs : Int) (reward : ℚ) (done : Bool) :
    ∀ e ∈ (runLoop env ctrl fuel es cs obs reward done).1, isEnvResetEv e = false := by
  intro e hmem
  rcases runLoop_mem env ctrl fuel es cs obs reward done e hmem with h | h
  · cases e <;> simp [isCtrlStepEv] at h <;> rfl
  · cases e <;> simp [isEnvStepEv] at h <;> rfl

theorem runLoop_first_some {ES CS : Type} (env : EnvOps ES) (ctrl : CtrlOps CS)
    (fuel : ℕ) (es : ES) (cs : CS) (obs : Int) (reward : ℚ)
    (hnd : (runLoop env ctrl fuel es cs obs reward false).2 ≠ Outcome.diverged) :
    firstCtrlReward (runLoop env ctrl fuel es cs obs reward false).1 = some reward := by
  rcases runLoop_first_or_empty env ctrl fuel es cs obs reward with ⟨_, hdiv⟩ | hsome
  · exact absurd hdiv hnd
  · exact hsome

theorem runTrials_rz {ES CS : Type} (env : EnvOps ES) (ctrl : CtrlOps CS)
    (fuel : ℕ) :
    ∀ (n : ℕ) (es : ES) (cs : CS) (scores : Ledger) (tail : List Event),
      (∀ e ∈ tail, isCtrlStepEv e = false) →
      (∀ e ∈ tail, isEnvResetEv e = false) →
      rewardZeroAfterReset tail = true →
      rewardZeroAfterReset ((runTrials env ctrl fuel n es cs scores).1 ++ tail) = true := by
  intro n
  induction n with
  | zero =>
      intro es cs scores tail hc hr hrz
      simpa [runTrials] using hrz
  | succ n ih =>
      intro es cs scores tail hc hr hrz
      rcases hrl : runLoop env ctrl fuel (env.set_goal (env.reset es).1)
          (ctrl.start_extrinsic_trial cs) (env.reset es).2 0 false with ⟨tr0, out⟩
      have hnr0 := runLoop_no_reset env ctrl fuel (env.set_goal (env.reset es).1)
        (ctrl.start_extrinsic_trial cs) (env.reset es).2 0 false
      rw [hrl] at hnr0
      simp only at hnr0
      cases out with
      | ok pr =>
          obtain ⟨es2, cs2⟩ := pr
          rw [runTrials_succ_ok env ctrl fuel n es cs scores tr0 es2 cs2 hrl]
          have hfirst : firstCtrlReward tr0 = some 0 := by
            have := runLoop_first_some env ctrl fuel (env.set_goal (env.reset es).1)
              (ctrl.start_extrinsic_trial cs) (env.reset es).2 0 (by rw [hrl]; simp)
            rw [hrl] at this
            simpa using this
          simp only [List.cons_append, List.append_eq, List.append_assoc,
            rewardZeroAfterReset, firstCtrlReward, Bool.and_eq_true]
          constructor
          · rw [firstCtrlReward_append_some tr0 _ 0 hfirst]
            simp
          · rw [rz_append_skip tr0 _ hnr0]
            simp only [rewardZeroAfterReset]
            exact ih (env.evaluateGoal es2).1 (ctrl.end_extrinsic_trial cs2)
              (build_score_object_st (add_scores (env.evaluateGoal es2).2.1
                (env.evaluateGoal es2).2.2 scores)).2 tail hc hr hrz
      | exn e0 =>
          rw [runTrials_succ_exn env ctrl fuel n es cs scores tr0 e0 hrl]
          have hfirst : firstCtrlReward tr0 = some 0 := by
            have := runLoop_first_some env ctrl fuel (env.set_goal (env.reset es).1)
              (ctrl.start_extrinsic_trial cs) (env.reset es).2 0 (by rw [hrl]; simp)
            rw [hrl] at this
            simpa using this
          simp only [List.cons_append, List.append_eq, rewardZeroAfterReset,
            firstCtrlReward, Bool.and_eq_true]
          constructor
          · rw [firstCtrlReward_append_some tr0 _ 0 hfirst]
            simp
          · rw [rz_append_skip tr0 _ hnr0]
            exact hrz
      | diverged =>
          rw [runTrials_succ_diverged env ctrl fuel n es cs scores tr0 hrl]
          simp only [List.cons_append, List.append_eq, rewardZeroAfterReset,
            firstCtrlReward, Bool.and_eq_true]
          constructor
          · rcases runLoop_first_or_empty env ctrl fuel (env.set_goal (env.reset es).1)
                (ctrl.start_extrinsic_trial cs) (env.reset es).2 0 with ⟨hemp, _⟩ | hsome
            · rw [hrl] at hemp
              simp only at hemp
              subst hemp
              simp [firstCtrlReward_none_of_all tail hc]
            · rw [hrl] at hsome
              simp only at hsome
              rw [firstCtrlReward_append_some tr0 _ 0 hsome]
              simp
          · rw [rz_append_skip tr0 _ hnr0]
            exact hrz

theorem runTrials_all_done_false {ES CS : Type} (env : EnvOps ES) (ctrl : CtrlOps CS)
    (fuel : ℕ) :
    ∀ (n : ℕ) (es : ES) (cs : CS) (scores : Ledger),
      (runTrials env ctrl fuel n es cs scores).1.all ctrlDoneFalse = true := by
  intro n
  induction n with
  | zero => intro es cs scores; simp [runTrials]
  | succ n ih =>
      intro es cs scores
      rcases hrl : runLoop env ctrl fuel (env.set_goal (env.reset es).1)
          (ctrl.start_extrinsic_trial cs) (env.reset es).2 0 false with ⟨tr0, out⟩
      have hl := runLoop_all_done_false env ctrl fuel (env.set_goal (env.reset es).1)
        (ctrl.start_extrinsic_trial cs) (env.reset es).2 0 false
      rw [hrl] at hl
      simp only at hl
      cases out with
      | ok pr =>
          obtain ⟨es2, cs2⟩ := pr
          rw [runTrials_succ_ok env ctrl fuel n es cs scores tr0 es2 cs2 hrl]
          simp [List.all_append, ctrlDoneFalse, hl, ih]
      | exn e0 =>
          rw [runTrials_succ_exn env ctrl fuel n es cs scores tr0 e0 hrl]
          simp [ctrlDoneFalse, hl]
      | diverged =>
          rw [runTrials_succ_diverged env ctrl fuel n es cs scores tr0 hrl]
          simp [ctrlDoneFalse, hl]

theorem intrinsicPhase_zero {ES CS : Type} (env : EnvOps ES) (ctrl : CtrlOps CS)
    (fuel : ℕ) (es : ES) (cs : CS) :
    intrinsicPhase env ctrl fuel 0 es cs = ([], Outcome.ok (es, cs)) := by
  simp [intrinsicPhase]

theorem intrinsicPhase_count_zero {ES CS : Type} (env : EnvOps ES) (ctrl : CtrlOps CS)
    (fuel itn : ℕ) (es : ES) (cs : CS) (p : Event → Bool)
    (h1 : p Event.envReset = false) (h2 : p Event.startIntrinsicPhase = false)
    (h3 : p Event.endIntrinsicPhase = false)
    (h6 : ∀ o r d, p (Event.ctrlStep o r d) = false)
    (h7 : ∀ a, p (Event.envStep a) = false) :
    countEv p (intrinsicPhase env ctrl fuel itn es cs).1 = 0 := by
  by_cases hpos : 0 < itn
  · have hz := runLoop_count_zero env ctrl fuel (env.reset es).1
      (ctrl.start_intrinsic_phase cs) (env.reset es).2 0 false p h6 h7
    rcases hrl : runLoop env ctrl fuel (env.reset es).1
        (ctrl.start_intrinsic_phase cs) (env.reset es).2 0 false with ⟨tr0, out⟩
    rw [hrl] at hz
    simp only at hz
    cases out <;> simp [intrinsicPhase, hpos, hrl, countEv_cons, countEv_append,
      countEv_nil, h1, h2, h3, hz]
  · simp [intrinsicPhase, hpos, countEv]

theorem intrinsicPhase_all_done_false {ES CS : Type} (env : EnvOps ES)
    (ctrl : CtrlOps CS) (fuel itn : ℕ) (es : ES) (cs : CS) :
    (intrinsicPhase env ctrl fuel itn es cs).1.all ctrlDoneFalse = true := by
  by_cases hpos : 0 < itn
  · have hl := runLoop_all_done_false env ctrl fuel (env.reset es).1
      (ctrl.start_intrinsic_phase cs) (env.reset es).2 0 false
    rcases hrl : runLoop env ctrl fuel (env.reset es).1
        (ctrl.start_intrinsic_phase cs) (env.reset es).2 0 false with ⟨tr0, out⟩
    rw [hrl] at hl
    simp only at hl
    cases out <;> simp [intrinsicPhase, hpos, hrl, List.all_append,
      ctrlDoneFalse, hl]
  · simp [intrinsicPhase, hpos]

theorem intrinsicPhase_ok_rz {ES CS : Type} (env : EnvOps ES) (ctrl : CtrlOps CS)
    (fuel itn : ℕ) (es : ES) (cs : CS) (tr1 : List Event) (p : ES × CS)
    (hip : intrinsicPhase env ctrl fuel itn es cs = (tr1, Outcome.ok p))
    (tail : List Event) (hrzt : rewardZeroAfterReset tail = true) :
    rewardZeroAfterReset (tr1 ++ tail) = true := by
  by_cases hpos : 0 < itn
  · rcases hrl : runLoop env ctrl fuel (env.reset es).1
        (ctrl.start_intrinsic_phase cs) (env.reset es).2 0 false with ⟨tr0, out⟩
    have hnr0 := runLoop_no_reset env ctrl fuel (env.reset es).1
      (ctrl.start_intrinsic_phase cs) (env.reset es).2 0 false
    rw [hrl] at hnr0
    simp only at hnr0
    cases out with
    | ok p0 =>
        obtain ⟨es1, cs2⟩ := p0
        have hfirst : firstCtrlReward tr0 = some 0 := by
          have := runLoop_first_some env ctrl fuel (env.reset es).1
            (ctrl.start_intrinsic_phase cs) (env.reset es).2 0 (by rw [hrl]; simp)
          rw [hrl] at this
          simpa using this
        have htr : tr1 = Event.envReset :: Event.startIntrinsicPhase ::
            tr0 ++ [Event.endIntrinsicPhase] := by
          have := congrArg Prod.fst hip
          simp [intrinsicPhase, hpos, hrl] at this
          exact this.symm
        subst htr
        simp only [List.cons_append, List.append_eq, List.append_assoc,
          rewardZeroAfterReset, firstCtrlReward, Bool.and_eq_true]
        constructor
        · rw [firstCtrlReward_append_some tr0 _ 0 hfirst]
          simp
        · rw [rz_append_skip tr0 _ hnr0]
          simpa [rewardZeroAfterReset] using hrzt
    | exn e0 =>
        have := congrArg Prod.snd hip
        simp [intrinsicPhase, hpos, hrl] at this
    | diverged =>
        have := congrArg Prod.snd hip
        simp [intrinsicPhase, hpos, hrl] at this
  · have htr : tr1 = [] := by
      have := congrArg Prod.fst hip
      simp [intrinsicPhase, hpos] at this
      exact this
    subst htr
    simpa using hrzt

theorem intrinsicPhase_rz_self {ES CS : Type} (env : EnvOps ES) (ctrl : CtrlOps CS)
    (fuel itn : ℕ) (es : ES) (cs : CS) :
    rewardZeroAfterReset (intrinsicPhase env ctrl fuel itn es cs).1 = true := by
  by_cases hpos : 0 < itn
  · rcases hrl : runLoop env ctrl fuel (env.reset es).1
        (ctrl.start_intrinsic_phase cs) (env.reset es).2 0 false with ⟨tr0, out⟩
    have hnr0 := runLoop_no_reset env ctrl fuel (env.reset es).1
      (ctrl.start_intrinsic_phase cs) (env.reset es).2 0 false
    rw [hrl] at hnr0
    simp only at hnr0
    have hfirst := runLoop_first_or_empty env ctrl fuel (env.reset es).1
      (ctrl.start_intrinsic_phase cs) (env.reset es).2 0
    rw [hrl] at hfirst
    simp only at hfirst
    cases out with
    | ok p0 =>
        obtain ⟨es1, cs2⟩ := p0
        rcases hfirst with ⟨_, hdiv⟩ | hsome
        · simp at hdiv
        · simp only [intrinsicPhase, hpos, if_pos, hrl]
          simp only [List.cons_append, List.append_eq, rewardZeroAfterReset,
            firstCtrlReward, Bool.and_eq_true]
          constructor
          · rw [firstCtrlReward_append_some tr0 _ 0 hsome]
            simp
          · rw [rz_append_skip tr0 _ hnr0]
            rfl
    | exn e0 =>
        rcases hfirst with ⟨_, hdiv⟩ | hsome
        · simp at hdiv
        · simp only [intrinsicPhase, hpos, if_pos, hrl]
          simp only [rewardZeroAfterReset, firstCtrlReward, Bool.and_eq_true]
          constructor
          · rw [hsome]
            simp
          · rw [← List.append_nil tr0, rz_append_skip tr0 _ hnr0]
            rfl
    | diverged =>
        simp only [intrinsicPhase, hpos, if_pos, hrl]
        simp only [rewardZeroAfterReset, firstCtrlReward, Bool.and_eq_true]
        constructor
        · rcases hfirst with ⟨hemp, _⟩ | hsome
          · subst hemp
            simp [firstCtrlReward]
          · rw [hsome]
            simp
        · rw [← List.append_nil tr0, rz_append_skip tr0 _ hnr0]
          rfl
  · simp [intrinsicPhase, hpos, rewardZeroAfterReset]

theorem evaluateBody_eq_ok_ok {ES CS : Type} (envFam : Option ℕ → ℕ → EnvOps ES)
    (es0 : ES) (ctrl : CtrlOps CS) (it : Option ℕ) (et N fuel : ℕ)
    (tr1 tr2 : List Event) (es1 : ES) (cs1 : CS) (es2 : ES) (cs3 : CS)
    (scores : Ledger)
    (hip : intrinsicPhase (envFam it et) ctrl fuel (it.getD 0) es0 ctrl.init =
      (tr1, Outcome.ok (es1, cs1)))
    (hrt : runTrials (envFam it et) ctrl fuel N es1
        (ctrl.start_extrinsic_phase cs1) [] = (tr2, Outcome.ok (es2, cs3, scores))) :
    evaluateBody envFam es0 ctrl it et N fuel =
      ⟨Event.constructCtrl :: tr1 ++ Event.startExtrinsicPhase :: tr2 ++
          [Event.endExtrinsicTrial],
        initEvaluationState it et N, Outcome.ok (build_score_object scores)⟩ := by
  simp [evaluateBody, hip, hrt]

theorem evaluateBody_eq_ok_exn {ES CS : Type} (envFam : Option ℕ → ℕ → EnvOps ES)
    (es0 : ES) (ctrl : CtrlOps CS) (it : Option ℕ) (et N fuel : ℕ)
    (tr1 tr2 : List Event) (es1 : ES) (cs1 : CS) (e : String)
    (hip : intrinsicPhase (envFam it et) ctrl fuel (it.getD 0) es0 ctrl.init =
      (tr1, Outcome.ok (es1, cs1)))
    (hrt : runTrials (envFam it et) ctrl fuel N es1
        (ctrl.start_extrinsic_phase cs1) [] = (tr2, Outcome.exn e)) :
    evaluateBody envFam es0 ctrl it et N fuel =
      ⟨Event.constructCtrl :: tr1 ++ Event.startExtrinsicPhase :: tr2,
        initEvaluationState it et N, Outcome.exn e⟩ := by
  simp [evaluateBody, hip, hrt]

theorem evaluateBody_eq_ok_diverged {ES CS : Type} (envFam : Option ℕ → ℕ → EnvOps ES)
    (es0 : ES) (ctrl : CtrlOps CS) (it : Option ℕ) (et N fuel : ℕ)
    (tr1 tr2 : List Event) (es1 : ES) (cs1 : CS)
    (hip : intrinsicPhase (envFam it et) ctrl fuel (it.getD 0) es0 ctrl.init =
      (tr1, Outcome.ok (es1, cs1)))
    (hrt : runTrials (envFam it et) ctrl fuel N es1
        (ctrl.start_extrinsic_phase cs1) [] = (tr2, Outcome.diverged)) :
    evaluateBody envFam es0 ctrl it et N fuel =
      ⟨Event.constructCtrl :: tr1 ++ Event.startExtrinsicPhase :: tr2,
        initEvaluationState it et N, Outcome.diverged⟩ := by
  simp [evaluateBody, hip, hrt]

theorem evaluateBody_eq_intr_exn {ES CS : Type} (envFam : Option ℕ → ℕ → EnvOps ES)
    (es0 : ES) (ctrl : CtrlOps CS) (it : Option ℕ) (et N fuel : ℕ)
    (tr1 : List Event) (e : String)
    (hip : intrinsicPhase (envFam it et) ctrl fuel (it.getD 0) es0 ctrl.init =
      (tr1, Outcome.exn e)) :
    evaluateBody envFam es0 ctrl it et N fuel =
      ⟨Event.constructCtrl :: tr1, initEvaluationState it et N, Outcome.exn e⟩ := by
  simp [evaluateBody, hip]

theorem evaluateBody_eq_intr_diverged {ES CS : Type} (envFam : Option ℕ → ℕ → EnvOps ES)
    (es0 : ES) (ctrl : CtrlOps CS) (it : Option ℕ) (et N fuel : ℕ)
    (tr1 : List Event)
    (hip : intrinsicPhase (envFam it et) ctrl fuel (it.getD 0) es0 ctrl.init =
      (tr1, Outcome.diverged)) :
    evaluateBody envFam es0 ctrl it et N fuel =
      ⟨Event.constructCtrl :: tr1, initEvaluationState it et N, Outcome.diverged⟩ := by
  simp [evaluateBody, hip]

/-- C10: in both step loops every controller.step call receives
done = false, and after each environment reset the first controller.step
call receives reward = 0, for every environment, controller and
configuration. -/
theorem c10_step_call_arguments {ES CS : Type} (envFam : Option ℕ → ℕ → EnvOps ES)
    (es0 : ES) (ctrl : CtrlOps CS) (it : Option ℕ) (et N fuel : ℕ) :
    (evaluateBody envFam es0 ctrl it et N fuel).trace.all ctrlDoneFalse = true ∧
    rewardZeroAfterReset (evaluateBody envFam es0 ctrl it et N fuel).trace = true := by
  have hipall := intrinsicPhase_all_done_false (envFam it et) ctrl fuel (it.getD 0)
    es0 ctrl.init
  have hiprz := intrinsicPhase_rz_self (envFam it et) ctrl fuel (it.getD 0)
    es0 ctrl.init
  rcases hip : intrinsicPhase (envFam it et) ctrl fuel (it.getD 0) es0 ctrl.init
    with ⟨tr1, out1⟩
  rw [hip] at hipall hiprz
  simp only at hipall hiprz
  cases out1 with
  | ok p1 =>
      obtain ⟨es1, cs1⟩ := p1
      have hrtall := runTrials_all_done_false (envFam it et) ctrl fuel N es1
        (ctrl.start_extrinsic_phase cs1) []
      rcases hrt : runTrials (envFam it et) ctrl fuel N es1
          (ctrl.start_extrinsic_phase cs1) [] with ⟨tr2, out2⟩
      rw [hrt] at hrtall
      simp only at hrtall
      cases out2 with
      | ok a =>
          obtain ⟨es2, cs3, scores⟩ := a
          rw [evaluateBody_eq_ok_ok envFam es0 ctrl it et N fuel tr1 tr2 es1 cs1
            es2 cs3 scores hip hrt]
          constructor
          · simp [List.all_append, ctrlDoneFalse, hipall, hrtall]
          · simp only [rewardZeroAfterReset]
            rw [List.append_eq, List.append_eq, List.append_assoc]
            apply intrinsicPhase_ok_rz (envFam it et) ctrl fuel (it.getD 0) es0
              ctrl.init tr1 (es1, cs1) hip
            simp only [List.cons_append, rewardZeroAfterReset]
            have := runTrials_rz (envFam it et) ctrl fuel N es1
              (ctrl.start_extrinsic_phase cs1) [] [Event.endExtrinsicTrial]
              (by intro e he; simp at he; subst he; rfl)
              (by intro e he; simp at he; subst he; rfl)
              (by rfl)
            rw [hrt] at this
            simpa using this
      | exn e =>
          rw [evaluateBody_eq_ok_exn envFam es0 ctrl it et N fuel tr1 tr2 es1 cs1
            e hip hrt]
          constructor
          · simp [List.all_append, ctrlDoneFalse, hipall, hrtall]
          · simp only [rewardZeroAfterReset]
            apply intrinsicPhase_ok_rz (envFam it et) ctrl fuel (it.getD 0) es0
              ctrl.init tr1 (es1, cs1) hip
            simp only [rewardZeroAfterReset]
            have := runTrials_rz (envFam it et) ctrl fuel N es1
              (ctrl.start_extrinsic_phase cs1) [] []
              (by intro e2 he; simp at he) (by intro e2 he; simp at he) (by rfl)
            rw [hrt] at this
            simpa using this
      | diverged =>
          rw [evaluateBody_eq_ok_diverged envFam es0 ctrl it et N fuel tr1 tr2
            es1 cs1 hip hrt]
          constructor
          · simp [List.all_append, ctrlDoneFalse, hipall, hrtall]
          · simp only [rewardZeroAfterReset]
            apply intrinsicPhase_ok_rz (envFam it et) ctrl fuel (it.getD 0) es0
              ctrl.init tr1 (es1, cs1) hip
            simp only [rewardZeroAfterReset]
            have := runTrials_rz (envFam it et) ctrl fuel N es1
              (ctrl.start_extrinsic_phase cs1) [] []
              (by intro e2 he; simp at he) (by intro e2 he; simp at he) (by rfl)
            rw [hrt] at this
            simpa using this
  | exn e =>
      rw [evaluateBody_eq_intr_exn envFam es0 ctrl it et N fuel tr1 e hip]
      constructor
      · simp [ctrlDoneFalse, hipall]
      · simp only [rewardZeroAfterReset]
        exact hiprz
  | diverged =>
      rw [evaluateBody_eq_intr_diverged envFam es0 ctrl it et N fuel tr1 hip]
      constructor
      · simp [ctrlDoneFalse, hipall]
      · simp only [rewardZeroAfterReset]
        exact hiprz

theorem intrinsicPhase_pos_irrel {ES CS : Type} (env : EnvOps ES) (ctrl : CtrlOps CS)
    (fuel a b : ℕ) (es : ES) (cs : CS) (ha : 0 < a) (hb : 0 < b) :
    intrinsicPhase env ctrl fuel a es cs = intrinsicPhase env ctrl fuel b es cs := by
  simp [intrinsicPhase, ha, hb]

/-- C5: with an intrinsic timestep budget of 0 (or disabled, i.e. none),
the run performs nothing before the extrinsic phase begins except the
controller construction: no intrinsic reset, no intrinsic phase hooks, no
controller step; the intrinsic hooks are never invoked at all; and the
evaluation_state record is left at its initial value, whose state field is
"PENDING" (the source never writes the documented SKIPPED marking, nor
does the record even hold an intrinsic_phase_state field). -/
theorem c5_intrinsic_skip {ES CS : Type} (envFam : Option ℕ → ℕ → EnvOps ES)
    (es0 : ES) (ctrl : CtrlOps CS) (it : Option ℕ) (et N fuel : ℕ)
    (hit : it.getD 0 = 0) :
    (∃ rest, (evaluateBody envFam es0 ctrl it et N fuel).trace =
      Event.constructCtrl :: Event.startExtrinsicPhase :: rest) ∧
    countEv isStartIntrEv (evaluateBody envFam es0 ctrl it et N fuel).trace = 0 ∧
    countEv isEndIntrEv (evaluateBody envFam es0 ctrl it et N fuel).trace = 0 ∧
    (evaluateBody envFam es0 ctrl it et N fuel).finalState =
      initEvaluationState it et N ∧
    (evaluateBody envFam es0 ctrl it et N fuel).finalState.state = "PENDING" := by
  have hip : intrinsicPhase (envFam it et) ctrl fuel (it.getD 0) es0 ctrl.init =
      ([], Outcome.ok (es0, ctrl.init)) := by
    rw [hit]
    exact intrinsicPhase_zero (envFam it et) ctrl fuel es0 ctrl.init
  have hz1 := runTrials_count_zero (envFam it et) ctrl fuel isStartIntrEv
    rfl rfl rfl rfl (fun c s => rfl) (fun o r d => rfl) (fun a => rfl)
    N es0 (ctrl.start_extrinsic_phase ctrl.init) []
  have hz2 := runTrials_count_zero (envFam it et) ctrl fuel isEndIntrEv
    rfl rfl rfl rfl (fun c s => rfl) (fun o r d => rfl) (fun a => rfl)
    N es0 (ctrl.start_extrinsic_phase ctrl.init) []
  rcases hrt : runTrials (envFam it et) ctrl fuel N es0
      (ctrl.start_extrinsic_phase ctrl.init) [] with ⟨tr2, out2⟩
  rw [hrt] at hz1 hz2
  simp only at hz1 hz2
  cases out2 with
  | ok a =>
      obtain ⟨es2, cs3, scores⟩ := a
      rw [evaluateBody_eq_ok_ok envFam es0 ctrl it et N fuel [] tr2 es0
        ctrl.init es2 cs3 scores hip hrt]
      refine ⟨⟨tr2 ++ [Event.endExtrinsicTrial], by simp⟩, ?_, ?_, rfl, rfl⟩
      · simp only [List.nil_append, List.cons_append, countEv_cons,
          countEv_append, countEv_nil, hz1]
        simp [isStartIntrEv]
      · simp only [List.nil_append, List.cons_append, countEv_cons,
          countEv_append, countEv_nil, hz2]
        simp [isEndIntrEv]
  | exn e =>
      rw [evaluateBody_eq_ok_exn envFam es0 ctrl it et N fuel [] tr2 es0
        ctrl.init e hip hrt]
      refine ⟨⟨tr2, by simp⟩, ?_, ?_, rfl, rfl⟩
      · simp [countEv_cons, isStartIntrEv, hz1]
      · simp [countEv_cons, isEndIntrEv, hz2]
  | diverged =>
      rw [evaluateBody_eq_ok_diverged envFam es0 ctrl it et N fuel [] tr2 es0
        ctrl.init hip hrt]
      refine ⟨⟨tr2, by simp⟩, ?_, ?_, rfl, rfl⟩
      · simp [countEv_cons, isStartIntrEv, hz1]
      · simp [countEv_cons, isEndIntrEv, hz2]

/-- C9: when the supplied controller class is not a subclass of
BasePolicy, the run fails once, at construction time, with the
descriptive message, before the controller is constructed and before any
environment or controller interaction (empty trace, no evaluation_state);
when the check passes, the run is exactly the body, which never consults
the flag again. -/
theorem c9_subclass_check {ES CS : Type} (envFam : Option ℕ → ℕ → EnvOps ES)
    (es0 : ES) (ctrl : CtrlOps CS) (it : Option ℕ) (et N fuel : ℕ) :
    evaluate false envFam es0 ctrl it et N fuel =
      ([], none, Outcome.exn subclassError) ∧
    evaluate true envFam es0 ctrl it et N fuel =
      ((evaluateBody envFam es0 ctrl it et N fuel).trace,
        some (evaluateBody envFam es0 ctrl it et N fuel).finalState,
        (evaluateBody envFam es0 ctrl it et N fuel).outcome) := by
  constructor
  · simp [evaluate]
  · simp [evaluate]

/-- C2: in a run that completes the extrinsic phase with N trials (shown
here with the intrinsic phase disabled so the whole trace is the
extrinsic phase), the environment reset / set_goal / evaluateGoal triple
is invoked exactly N times and start_extrinsic_trial exactly N times, the
N trial brackets strictly alternate without overlap — but
end_extrinsic_trial is invoked N + 1 times in total, because line 243 of
the source issues it once more after the loop.  The claimed count of
exactly N end-trial notifications therefore fails on the code. -/
theorem c2_trial_counts {ES CS : Type} (envFam : Option ℕ → ℕ → EnvOps ES)
    (es0 : ES) (ctrl : CtrlOps CS) (it : Option ℕ) (et N fuel : ℕ)
    (tr2 : List Event) (es2 : ES) (cs3 : CS) (scores : Ledger)
    (hit : it.getD 0 = 0)
    (hrt : runTrials (envFam it et) ctrl fuel N es0
        (ctrl.start_extrinsic_phase ctrl.init) [] =
      (tr2, Outcome.ok (es2, cs3, scores))) :
    countEv isEnvResetEv (evaluateBody envFam es0 ctrl it et N fuel).trace = N ∧
    countEv isSetGoalEv (evaluateBody envFam es0 ctrl it et N fuel).trace = N ∧
    countEv isEvalGoalEv (evaluateBody envFam es0 ctrl it et N fuel).trace = N ∧
    countEv isStartTrialEv (evaluateBody envFam es0 ctrl it et N fuel).trace = N ∧
    countEv isEndTrialEv (evaluateBody envFam es0 ctrl it et N fuel).trace = N + 1 ∧
    (evaluateBody envFam es0 ctrl it et N fuel).trace.filter isTrialMarkEv =
      altMarks N ++ [Event.endExtrinsicTrial] := by
  have hip : intrinsicPhase (envFam it et) ctrl fuel (it.getD 0) es0 ctrl.init =
      ([], Outcome.ok (es0, ctrl.init)) := by
    rw [hit]
    exact intrinsicPhase_zero (envFam it et) ctrl fuel es0 ctrl.init
  obtain ⟨h1, h2, h3, h4, h5, h6⟩ := runTrials_ok_facts (envFam it et) ctrl fuel N
    es0 (ctrl.start_extrinsic_phase ctrl.init) [] tr2 (es2, cs3, scores) hrt
  rw [evaluateBody_eq_ok_ok envFam es0 ctrl it et N fuel [] tr2 es0 ctrl.init
    es2 cs3 scores hip hrt]
  refine ⟨?_, ?_, ?_, ?_, ?_, ?_⟩
  · simp only [List.nil_append, List.cons_append, countEv_cons, countEv_append,
      countEv_nil, h1]
    simp [isEnvResetEv]
  · simp only [List.nil_append, List.cons_append, countEv_cons, countEv_append,
      countEv_nil, h2]
    simp [isSetGoalEv]
  · simp only [List.nil_append, List.cons_append, countEv_cons, countEv_append,
      countEv_nil, h3]
    simp [isEvalGoalEv]
  · simp only [List.nil_append, List.cons_append, countEv_cons, countEv_append,
      countEv_nil, h4]
    simp [isStartTrialEv]
  · simp only [List.nil_append, List.cons_append, countEv_cons, countEv_append,
      countEv_nil, h5]
    simp [isEndTrialEv]
  · simp only [List.nil_append, List.cons_append, List.filter_cons,
      List.filter_append, h6]
    simp [isTrialMarkEv, isStartTrialEv, isEndTrialEv]

/-- C3: the end_extrinsic_phase notification is never issued by the
source — its count in every run trace is 0 — and a run that completes
normally instead ends its trace with a second end_extrinsic_trial
notification (line 243), after which the run returns.  The claimed single
end_extrinsic_phase call therefore fails on the code. -/
theorem c3_no_end_phase_hook {ES CS : Type} (envFam : Option ℕ → ℕ → EnvOps ES)
    (es0 : ES) (ctrl : CtrlOps CS) (it : Option ℕ) (et N fuel : ℕ) :
    countEv isEndPhaseEv (evaluateBody envFam es0 ctrl it et N fuel).trace = 0 ∧
    (∀ so, (evaluateBody envFam es0 ctrl it et N fuel).outcome = Outcome.ok so →
      (evaluateBody envFam es0 ctrl it et N fuel).trace.getLast? =
        some Event.endExtrinsicTrial) := by
  have hipz := intrinsicPhase_count_zero (envFam it et) ctrl fuel (it.getD 0)
    es0 ctrl.init isEndPhaseEv rfl rfl rfl (fun o r d => rfl) (fun a => rfl)
  rcases hip : intrinsicPhase (envFam it et) ctrl fuel (it.getD 0) es0 ctrl.init
    with ⟨tr1, out1⟩
  rw [hip] at hipz
  simp only at hipz
  cases out1 with
  | ok p1 =>
      obtain ⟨es1, cs1⟩ := p1
      have hrtz := runTrials_count_zero (envFam it et) ctrl fuel isEndPhaseEv
        rfl rfl rfl rfl (fun c s => rfl) (fun o r d => rfl) (fun a => rfl)
        N es1 (ctrl.start_extrinsic_phase cs1) []
      rcases hrt : runTrials (envFam it et) ctrl fuel N es1
          (ctrl.start_extrinsic_phase cs1) [] with ⟨tr2, out2⟩
      rw [hrt] at hrtz
      simp only at hrtz
      cases out2 with
      | ok a =>
          obtain ⟨es2, cs3, scores⟩ := a
          rw [evaluateBody_eq_ok_ok envFam es0 ctrl it et N fuel tr1 tr2 es1 cs1
            es2 cs3 scores hip hrt]
          constructor
          · simp only [List.cons_append, countEv_cons, countEv_append,
              countEv_nil, hipz, hrtz]
            simp [isEndPhaseEv]
          · intro so _
            have hshape : Event.constructCtrl :: tr1 ++
                Event.startExtrinsicPhase :: tr2 ++ [Event.endExtrinsicTrial] =
                (Event.constructCtrl :: tr1 ++
                  Event.startExtrinsicPhase :: tr2) ++ [Event.endExtrinsicTrial] := by
              simp
            simp only [hshape]
            rw [List.getLast?_concat]
      | exn e =>
          rw [evaluateBody_eq_ok_exn envFam es0 ctrl it et N fuel tr1 tr2 es1 cs1
            e hip hrt]
          constructor
          · simp only [List.cons_append, countEv_cons, countEv_append,
              countEv_nil, hipz, hrtz]
            simp [isEndPhaseEv]
          · intro so hso
            simp at hso
      | diverged =>
          rw [evaluateBody_eq_ok_diverged envFam es0 ctrl it et N fuel tr1 tr2
            es1 cs1 hip hrt]
          constructor
          · simp only [List.cons_append, countEv_cons, countEv_append,
              countEv_nil, hipz, hrtz]
            simp [isEndPhaseEv]
          · intro so hso
            simp at hso
  | exn e =>
      rw [evaluateBody_eq_intr_exn envFam es0 ctrl it et N fuel tr1 e hip]
      constructor
      · simp only [countEv_cons, hipz]
        simp [isEndPhaseEv]
      · intro so hso
        simp at hso
  | diverged =>
      rw [evaluateBody_eq_intr_diverged envFam es0 ctrl it et N fuel tr1 hip]
      constructor
      · simp only [countEv_cons, hipz]
        simp [isEndPhaseEv]
      · intro so hso
        simp at hso

/-- C4: when the controller step raises during extrinsic trial k < N,
the exception propagates uncaught: the outcome of the run is that exception,
no ScoreObject is produced, the trace shows exactly k + 1
reset/set_goal/start-trial calls (none for trial k + 2 onward) and only k
completed trials, and the evaluation_state is left at its initial value —
its state field is still "PENDING", never set to the documented ERROR
value. -/
theorem c4_exception_propagation {ES CS : Type} (envFam : Option ℕ → ℕ → EnvOps ES)
    (es0 : ES) (ctrl : CtrlOps CS) (it : Option ℕ) (et N fuel : ℕ)
    (tr2 : List Event) (e : String)
    (hit : it.getD 0 = 0)
    (hrt : runTrials (envFam it et) ctrl fuel N es0
        (ctrl.start_extrinsic_phase ctrl.init) [] = (tr2, Outcome.exn e)) :
    (evaluateBody envFam es0 ctrl it et N fuel).trace =
      Event.constructCtrl :: Event.startExtrinsicPhase :: tr2 ∧
    (evaluateBody envFam es0 ctrl it et N fuel).outcome = Outcome.exn e ∧
    (∀ so, (evaluateBody envFam es0 ctrl it et N fuel).outcome ≠ Outcome.ok so) ∧
    (∃ k, k < N ∧ countEv isEnvResetEv tr2 = k + 1 ∧
      countEv isSetGoalEv tr2 = k + 1 ∧ countEv isStartTrialEv tr2 = k + 1 ∧
      countEv isEvalGoalEv tr2 = k ∧ countEv isEndTrialEv tr2 = k) ∧
    (evaluateBody envFam es0 ctrl it et N fuel).finalState.state = "PENDING" := by
  have hip : intrinsicPhase (envFam it et) ctrl fuel (it.getD 0) es0 ctrl.init =
      ([], Outcome.ok (es0, ctrl.init)) := by
    rw [hit]
    exact intrinsicPhase_zero (envFam it et) ctrl fuel es0 ctrl.init
  rw [evaluateBody_eq_ok_exn envFam es0 ctrl it et N fuel [] tr2 es0 ctrl.init
    e hip hrt]
  refine ⟨by simp, rfl, by simp, ?_, rfl⟩
  exact runTrials_exn_counts (envFam it et) ctrl fuel N es0
    (ctrl.start_extrinsic_phase ctrl.init) [] tr2 e hrt

/-- C6: the step loop terminates exactly when the environment signals
done — if the trajectory from a start state first sets done after k
iterations, the loop performs exactly k controller steps and k
environment steps for any fuel bound of at least k — and the configured
intrinsic budget is only forwarded to the environment: two runs whose
budgets are both positive and which induce the same configured
environment produce identical traces and outcomes. -/
theorem c6_loop_stops_on_done :
    (∀ (ES CS : Type) (env : EnvOps ES) (ctrl : CtrlOps CS) (k fuel : ℕ)
      (s : ES × CS × Int × ℚ × Bool),
      doneAfter env ctrl s k = true →
      (∀ j < k, doneAfter env ctrl s j = false) →
      k ≤ fuel →
      countEv isCtrlStepEv
        (runLoop env ctrl fuel s.1 s.2.1 s.2.2.1 s.2.2.2.1 s.2.2.2.2).1 = k ∧
      countEv isEnvStepEv
        (runLoop env ctrl fuel s.1 s.2.1 s.2.2.1 s.2.2.2.1 s.2.2.2.2).1 = k) ∧
    (∀ (ES CS : Type) (envFam : Option ℕ → ℕ → EnvOps ES) (es0 : ES)
      (ctrl : CtrlOps CS) (i1 i2 : Option ℕ) (et N fuel : ℕ),
      envFam i1 et = envFam i2 et → 0 < i1.getD 0 → 0 < i2.getD 0 →
      (evaluateBody envFam es0 ctrl i1 et N fuel).trace =
        (evaluateBody envFam es0 ctrl i2 et N fuel).trace ∧
      (evaluateBody envFam es0 ctrl i1 et N fuel).outcome =
        (evaluateBody envFam es0 ctrl i2 et N fuel).outcome) := by
  constructor
  · intro ES CS env ctrl k fuel s hdone hmin hfuel
    exact (runLoop_stops_at_first_done env ctrl k fuel s hdone hmin hfuel).2
  · intro ES CS envFam es0 ctrl i1 i2 et N fuel henv h1 h2
    have hphase : intrinsicPhase (envFam i1 et) ctrl fuel (i1.getD 0) es0 ctrl.init =
        intrinsicPhase (envFam i2 et) ctrl fuel (i2.getD 0) es0 ctrl.init := by
      rw [henv]
      exact intrinsicPhase_pos_irrel (envFam i2 et) ctrl fuel (i1.getD 0)
        (i2.getD 0) es0 ctrl.init h1 h2
    rcases hip : intrinsicPhase (envFam i2 et) ctrl fuel (i2.getD 0) es0 ctrl.init
      with ⟨tr1, out1⟩
    have hip1 : intrinsicPhase (envFam i1 et) ctrl fuel (i1.getD 0) es0 ctrl.init =
        (tr1, out1) := by rw [hphase, hip]
    cases out1 with
    | ok p1 =>
        obtain ⟨es1, cs1⟩ := p1
        rcases hrt : runTrials (envFam i2 et) ctrl fuel N es1
            (ctrl.start_extrinsic_phase cs1) [] with ⟨tr2, out2⟩
        have hrt1 : runTrials (envFam i1 et) ctrl fuel N es1
            (ctrl.start_extrinsic_phase cs1) [] = (tr2, out2) := by rw [henv, hrt]
        cases out2 with
        | ok a =>
            obtain ⟨es2, cs3, scores⟩ := a
            rw [evaluateBody_eq_ok_ok envFam es0 ctrl i1 et N fuel tr1 tr2 es1
              cs1 es2 cs3 scores hip1 hrt1,
              evaluateBody_eq_ok_ok envFam es0 ctrl i2 et N fuel tr1 tr2 es1
              cs1 es2 cs3 scores hip hrt]
            exact ⟨rfl, rfl⟩
        | exn e =>
            rw [evaluateBody_eq_ok_exn envFam es0 ctrl i1 et N fuel tr1 tr2 es1
              cs1 e hip1 hrt1,
              evaluateBody_eq_ok_exn envFam es0 ctrl i2 et N fuel tr1 tr2 es1
              cs1 e hip hrt]
            exact ⟨rfl, rfl⟩
        | diverged =>
            rw [evaluateBody_eq_ok_diverged envFam es0 ctrl i1 et N fuel tr1 tr2
              es1 cs1 hip1 hrt1,
              evaluateBody_eq_ok_diverged envFam es0 ctrl i2 et N fuel tr1 tr2
              es1 cs1 hip hrt]
            exact ⟨rfl, rfl⟩
    | exn e =>
        rw [evaluateBody_eq_intr_exn envFam es0 ctrl i1 et N fuel tr1 e hip1,
          evaluateBody_eq_intr_exn envFam es0 ctrl i2 et N fuel tr1 e hip]
        exact ⟨rfl, rfl⟩
    | diverged =>
        rw [evaluateBody_eq_intr_diverged envFam es0 ctrl i1 et N fuel tr1 hip1,
          evaluateBody_eq_intr_diverged envFam es0 ctrl i2 et N fuel tr1 hip]
        exact ⟨rfl, rfl⟩

/-- A small concrete environment for witnesses: observation 0, reward 0,
done once two steps have run since reset; every trial evaluates to
("2D", 1). -/
def demoEnv : EnvOps ℕ :=
  ⟨fun _ => (0, 0), fun s _ => (s + 1, 0, 0, decide (2 ≤ s + 1)), fun s => s,
    fun s => (s, "2D", 1)⟩

/-- A concrete controller that always answers action 0. -/
def demoCtrl : CtrlOps Unit :=
  ⟨(), fun _ _ _ _ => Except.ok ((), 0), fun c => c, fun c => c, fun c => c,
    fun c => c, fun c => c⟩

/-- A concrete controller whose step always raises. -/
def demoFailCtrl : CtrlOps Unit :=
  ⟨(), fun _ _ _ _ => Except.error "boom", fun c => c, fun c => c, fun c => c,
    fun c => c, fun c => c⟩

/-- Environment family ignoring the forwarded budgets. -/
def demoEnvFam : Option ℕ → ℕ → EnvOps ℕ := fun _ _ => demoEnv

/-- Trace of one completed demo trial. -/
def demoTrace1 : List Event :=
  [Event.envReset, Event.envSetGoal, Event.startExtrinsicTrial,
   Event.ctrlStep 0 0 false, Event.envStep 0,
   Event.ctrlStep 0 0 false, Event.envStep 0,
   Event.endExtrinsicTrial, Event.envEvaluateGoal "2D" 1]

/-- Trace of a demo trial aborted by a raising controller step. -/
def demoTrace2 : List Event :=
  [Event.envReset, Event.envSetGoal, Event.startExtrinsicTrial,
   Event.ctrlStep 0 0 false]

theorem c2_trial_counts_witness :
    ((some 0 : Option ℕ).getD 0 = 0 ∧
      runTrials (demoEnvFam (some 0) 3) demoCtrl 5 1 0
        (demoCtrl.start_extrinsic_phase demoCtrl.init) [] =
        (demoTrace1, Outcome.ok (2, (), [("2D", [(1 : ℚ)])]))) ∧
    (countEv isEnvResetEv
        (evaluateBody demoEnvFam 0 demoCtrl (some 0) 3 1 5).trace = 1 ∧
      countEv isSetGoalEv
        (evaluateBody demoEnvFam 0 demoCtrl (some 0) 3 1 5).trace = 1 ∧
      countEv isEvalGoalEv
        (evaluateBody demoEnvFam 0 demoCtrl (some 0) 3 1 5).trace = 1 ∧
      countEv isStartTrialEv
        (evaluateBody demoEnvFam 0 demoCtrl (some 0) 3 1 5).trace = 1 ∧
      countEv isEndTrialEv
        (evaluateBody demoEnvFam 0 demoCtrl (some 0) 3 1 5).trace = 1 + 1 ∧
      (evaluateBody demoEnvFam 0 demoCtrl (some 0) 3 1 5).trace.filter
        isTrialMarkEv = altMarks 1 ++ [Event.endExtrinsicTrial]) :=
  ⟨⟨rfl, rfl⟩, c2_trial_counts demoEnvFam 0 demoCtrl (some 0) 3 1 5
    demoTrace1 2 () [("2D", [(1 : ℚ)])] rfl rfl⟩

theorem c3_no_end_phase_hook_witness :
    countEv isEndPhaseEv
      (evaluateBody demoEnvFam 0 demoCtrl (some 0) 3 1 5).trace = 0 ∧
    (evaluateBody demoEnvFam 0 demoCtrl (some 0) 3 1 5).trace.getLast? =
      some Event.endExtrinsicTrial :=
  ⟨(c3_no_end_phase_hook demoEnvFam 0 demoCtrl (some 0) 3 1 5).1,
    (c3_no_end_phase_hook demoEnvFam 0 demoCtrl (some 0) 3 1 5).2
      (build_score_object [("2D", [(1 : ℚ)])]) rfl⟩

theorem c4_exception_propagation_witness :
    ((some 0 : Option ℕ).getD 0 = 0 ∧
      runTrials (demoEnvFam (some 0) 3) demoFailCtrl 5 2 0
        (demoFailCtrl.start_extrinsic_phase demoFailCtrl.init) [] =
        (demoTrace2, Outcome.exn "boom")) ∧
    ((evaluateBody demoEnvFam 0 demoFailCtrl (some 0) 3 2 5).trace =
        Event.constructCtrl :: Event.startExtrinsicPhase :: demoTrace2 ∧
      (evaluateBody demoEnvFam 0 demoFailCtrl (some 0) 3 2 5).outcome =
        Outcome.exn "boom" ∧
      (∀ so, (evaluateBody demoEnvFam 0 demoFailCtrl (some 0) 3 2 5).outcome ≠
        Outcome.ok so) ∧
      (∃ k, k < 2 ∧ countEv isEnvResetEv demoTrace2 = k + 1 ∧
        countEv isSetGoalEv demoTrace2 = k + 1 ∧
        countEv isStartTrialEv demoTrace2 = k + 1 ∧
        countEv isEvalGoalEv demoTrace2 = k ∧
        countEv isEndTrialEv demoTrace2 = k) ∧
      (evaluateBody demoEnvFam 0 demoFailCtrl (some 0) 3 2 5).finalState.state =
        "PENDING") :=
  ⟨⟨rfl, rfl⟩, c4_exception_propagation demoEnvFam 0 demoFailCtrl (some 0) 3 2 5
    demoTrace2 "boom" rfl rfl⟩

theorem c5_intrinsic_skip_witness :
    ((some 0 : Option ℕ).getD 0 = 0) ∧
    ((∃ rest, (evaluateBody demoEnvFam 0 demoCtrl (some 0) 3 1 5).trace =
        Event.constructCtrl :: Event.startExtrinsicPhase :: rest) ∧
      countEv isStartIntrEv
        (evaluateBody demoEnvFam 0 demoCtrl (some 0) 3 1 5).trace = 0 ∧
      countEv isEndIntrEv
        (evaluateBody demoEnvFam 0 demoCtrl (some 0) 3 1 5).trace = 0 ∧
      (evaluateBody demoEnvFam 0 demoCtrl (some 0) 3 1 5).finalState =
        initEvaluationState (some 0) 3 1 ∧
      (evaluateBody demoEnvFam 0 demoCtrl (some 0) 3 1 5).finalState.state =
        "PENDING") :=
  ⟨rfl, c5_intrinsic_skip demoEnvFam 0 demoCtrl (some 0) 3 1 5 rfl⟩

theorem c6_loop_stops_on_done_witness :
    (doneAfter demoEnv demoCtrl (0, (), 0, 0, false) 2 = true ∧
      (∀ j < 2, doneAfter demoEnv demoCtrl (0, (), 0, 0, false) j = false) ∧
      countEv isCtrlStepEv (runLoop demoEnv demoCtrl 5 0 () 0 0 false).1 = 2 ∧
      countEv isEnvStepEv (runLoop demoEnv demoCtrl 5 0 () 0 0 false).1 = 2) ∧
    (demoEnvFam (some 1) 3 = demoEnvFam (some 7) 3 ∧
      (evaluateBody demoEnvFam 0 demoCtrl (some 1) 3 1 5).trace =
        (evaluateBody demoEnvFam 0 demoCtrl (some 7) 3 1 5).trace ∧
      (evaluateBody demoEnvFam 0 demoCtrl (some 1) 3 1 5).outcome =
        (evaluateBody demoEnvFam 0 demoCtrl (some 7) 3 1 5).outcome) :=
  ⟨⟨by decide, by decide,
    (c6_loop_stops_on_done.1 ℕ Unit demoEnv demoCtrl 2 5 (0, (), 0, 0, false)
      (by decide) (by decide) (by decide)).1,
    (c6_loop_stops_on_done.1 ℕ Unit demoEnv demoCtrl 2 5 (0, (), 0, 0, false)
      (by decide) (by decide) (by decide)).2⟩,
   ⟨rfl,
    (c6_loop_stops_on_done.2 ℕ Unit demoEnvFam 0 demoCtrl (some 1) (some 7) 3 1 5
      rfl (by decide) (by decide)).1,
    (c6_loop_stops_on_done.2 ℕ Unit demoEnvFam 0 demoCtrl (some 1) (some 7) 3 1 5
      rfl (by decide) (by decide)).2⟩⟩
